import Mathlib

/-!
Shallow embedding of the CrimeaAI simulation core (Rust) in Lean 4, used to
settle the frozen specification claims.  Floating-point scalars are embedded
as exact rationals; the transcendental primitives `f32::log2` and `f32::sqrt`
are passed in as explicit function parameters; stochastic draws from
`rand::thread_rng` are threaded through an explicit stream of outcomes, so
every nondeterministic execution of the source corresponds to some stream.
-/

set_option maxHeartbeats 1000000
set_option maxRecDepth 8000

/-- Explicit stream of random-generator outcomes.  `nats` feeds
`gen_range(0..n)` and `gen::<u32>()` draws, `bools` feeds `gen_bool(p)`
draws, `rats` feeds floating draws such as `gen::<f32>()` and
`gen_range(lo..hi)`.  A draw consumes the head of its stream (defaulting
when exhausted), so quantifying over all streams quantifies over all
possible generator behaviours. -/
structure Rng where
  nats : List Nat
  bools : List Bool
  rats : List ℚ
deriving DecidableEq, Repr

namespace Rng

/-- Outcome of `gen_range(0..n)`: the drawn value is reduced into range. -/
def nextNat (n : Nat) (g : Rng) : Nat × Rng :=
  match g.nats with
  | [] => (0, g)
  | k :: ks => (k % n, { g with nats := ks })

/-- Outcome of `gen::<u32>()`. -/
def nextRaw (g : Rng) : Nat × Rng :=
  match g.nats with
  | [] => (0, g)
  | k :: ks => (k, { g with nats := ks })

/-- Outcome of `gen_bool(p)`. -/
def nextBool (g : Rng) : Bool × Rng :=
  match g.bools with
  | [] => (false, g)
  | b :: bs => (b, { g with bools := bs })

/-- Outcome of a floating draw (`gen::<f32>()` or `gen_range(lo..hi)`). -/
def nextRat (g : Rng) : ℚ × Rng :=
  match g.rats with
  | [] => (0, g)
  | q :: qs => (q, { g with rats := qs })

end Rng

/-- `f32::clamp(0.0, 1.0)` on exact rationals. -/
def clamp01 (x : ℚ) : ℚ := max 0 (min x 1)

theorem clamp01_mem (x : ℚ) : 0 ≤ clamp01 x ∧ clamp01 x ≤ 1 := by
  constructor
  · exact le_max_left 0 (min x 1)
  · exact max_le (by norm_num) (min_le_right x 1)

/-- Descending-by-key ordering used to embed Rust's stable
`sort_by(|a, b| b.key.partial_cmp(&a.key))`: `a` may come before `b`
exactly when `key b ≤ key a`.  `List.insertionSort` with this relation is
a stable descending sort, which is extensionally the behaviour of any
stable sort with that comparator. -/
def keyDescOrder {α : Type} (key : α → ℚ) (a b : α) : Prop := key b ≤ key a

instance {α : Type} (key : α → ℚ) : DecidableRel (keyDescOrder key) := by
  intro a b
  unfold keyDescOrder
  infer_instance

instance {α : Type} (key : α → ℚ) : IsTotal α (keyDescOrder key) := by
  constructor
  intro a b
  unfold keyDescOrder
  exact le_total (key b) (key a)

instance {α : Type} (key : α → ℚ) : IsTrans α (keyDescOrder key) := by
  constructor
  intro a b c h1 h2
  exact le_trans h2 h1

/-- Stable descending sort by a rational key (embeds `slice::sort_by` with a
descending comparator). -/
def sortByKeyDesc {α : Type} (key : α → ℚ) (l : List α) : List α :=
  List.insertionSort (keyDescOrder key) l

/-! ## ResilienceGuard (`src/archguard.rs`)

The circuit-breaker state and its Prometheus counters.  The rhythm
detector and the empathy gauge are independent of the breaker and of every
claim and are omitted.  `Instant` timestamps are embedded as rationals
(seconds); `Instant::now()` is passed to `execute` as the argument `now`. -/

inductive ArchGuardError where
  | CircuitOpen : ArchGuardError
  | ExecutionFailed : String → ArchGuardError
  | Timeout : ArchGuardError
deriving DecidableEq, Repr

/-- The mutable state of `ArchGuard`: the atomic circuit flag and failure
counter, the last-failure timestamp, and the monotone Prometheus counters
(`archguard_requests_total`, `archguard_errors_total`, and the number of
latency observations). -/
structure ArchGuardState where
  circuit_open : Bool
  failure_count : Nat
  last_failure_time : Option ℚ
  request_count : Nat
  error_count : Nat
  latency_count : Nat
deriving DecidableEq, Repr

namespace ArchGuardState

/-- `failure_threshold` fixed by `ArchGuard::new`. -/
def failure_threshold : Nat := 10

/-- `reset_timeout` (seconds) fixed by `ArchGuard::new`. -/
def reset_timeout : ℚ := 30

/-- Breaker state produced by `ArchGuard::new`. -/
def new : ArchGuardState :=
  { circuit_open := false
    failure_count := 0
    last_failure_time := none
    request_count := 0
    error_count := 0
    latency_count := 0 }

/-- `ArchGuard::should_reset` evaluated at time `now`. -/
def should_reset (s : ArchGuardState) (now : ℚ) : Bool :=
  match s.last_failure_time with
  | some t => decide (reset_timeout ≤ now - t)
  | none => false

/-- `ArchGuard::reset_circuit`. -/
def reset_circuit (s : ArchGuardState) : ArchGuardState :=
  { s with circuit_open := false, failure_count := 0 }

/-- `ArchGuard::execute` at time `now`.  The wrapped operation is embedded
by the value `op` its future resolves to; the rejection path returns
before `op` is consulted and before `request_counter.inc()`. -/
def execute {α : Type} (s : ArchGuardState) (now : ℚ) (op : Except ArchGuardError α) :
    Except ArchGuardError α × ArchGuardState :=
  if s.circuit_open ∧ ¬ s.should_reset now then
    (Except.error ArchGuardError.CircuitOpen, s)
  else
    let s1 := if s.circuit_open then s.reset_circuit else s
    let s2 := { s1 with request_count := s1.request_count + 1 }
    match op with
    | Except.ok v =>
        (Except.ok v,
         { s2 with failure_count := 0, latency_count := s2.latency_count + 1 })
    | Except.error e =>
        let count := s2.failure_count + 1
        (Except.error e,
         { s2 with
            error_count := s2.error_count + 1
            failure_count := count
            last_failure_time := some now
            circuit_open := if failure_threshold ≤ count then true else s2.circuit_open })

/-- `ArchGuard::is_circuit_open`. -/
def is_circuit_open (s : ArchGuardState) : Bool := s.circuit_open

/-- A run of consecutive failing `execute` calls: each element gives the
call time and the error the wrapped operation fails with. -/
def runFailures (s : ArchGuardState) (calls : List (ℚ × ArchGuardError)) : ArchGuardState :=
  calls.foldl (fun st c => (execute (α := Unit) st c.1 (Except.error c.2)).2) s

end ArchGuardState

namespace ArchGuardState

/-- Tracks the last-failure timestamp along a run of failing calls. -/
def lastTimeOf (calls : List (ℚ × ArchGuardError)) (init : Option ℚ) : Option ℚ :=
  calls.foldl (fun _ c => some c.1) init

theorem lastTimeOf_getLast (calls : List (ℚ × ArchGuardError))
    (c : ℚ × ArchGuardError) (init : Option ℚ) (h : calls.getLast? = some c) :
    lastTimeOf calls init = some c.1 := by
  induction calls generalizing init with
  | nil => simp at h
  | cons a l ih =>
      cases l with
      | nil =>
          simp [List.getLast?] at h
          simp [lastTimeOf, h]
      | cons b t =>
          rw [List.getLast?_cons_cons] at h
          simpa [lastTimeOf] using ih (some a.1) h

theorem runFailures_spec (calls : List (ℚ × ArchGuardError)) :
    ∀ s : ArchGuardState,
      s.circuit_open = decide (failure_threshold ≤ s.failure_count) →
      s.failure_count + calls.length ≤ failure_threshold →
      (runFailures s calls).failure_count = s.failure_count + calls.length ∧
      (runFailures s calls).circuit_open =
        decide (failure_threshold ≤ s.failure_count + calls.length) ∧
      (runFailures s calls).last_failure_time = lastTimeOf calls s.last_failure_time := by
  induction calls with
  | nil =>
      intro s hco _
      refine ⟨by simp [runFailures], ?_, by simp [runFailures, lastTimeOf]⟩
      simpa [runFailures] using hco
  | cons c rest ih =>
      intro s hco hle
      have hopen : s.circuit_open = false := by
        rw [hco]
        simp only [List.length_cons] at hle
        simp
        omega
      have hstep :
          (execute (α := Unit) s c.1 (Except.error c.2)).2 =
          { s with
              request_count := s.request_count + 1
              error_count := s.error_count + 1
              failure_count := s.failure_count + 1
              last_failure_time := some c.1
              circuit_open :=
                if failure_threshold ≤ s.failure_count + 1 then true else false } := by
        simp [execute, hopen]
      have hco' :
          (execute (α := Unit) s c.1 (Except.error c.2)).2.circuit_open =
            decide (failure_threshold ≤
              (execute (α := Unit) s c.1 (Except.error c.2)).2.failure_count) := by
        rw [hstep]
        by_cases h : failure_threshold ≤ s.failure_count + 1 <;> simp [h]
      have hle' :
          (execute (α := Unit) s c.1 (Except.error c.2)).2.failure_count + rest.length ≤
            failure_threshold := by
        rw [hstep]
        simp only [List.length_cons] at hle
        simp
        omega
      have hruns : runFailures s (c :: rest) =
          runFailures (execute (α := Unit) s c.1 (Except.error c.2)).2 rest := by
        simp [runFailures]
      rcases ih (execute (α := Unit) s c.1 (Except.error c.2)).2 hco' hle' with ⟨h1, h2, h3⟩
      refine ⟨?_, ?_, ?_⟩
      · rw [hruns, h1, hstep]
        simp only [List.length_cons]
        omega
      · rw [hruns, h2, hstep]
        simp only [List.length_cons, decide_eq_decide]
        omega
      · rw [hruns, h3, hstep]
        simp [lastTimeOf]

end ArchGuardState

/-- C2: with `failure_threshold = 10`, ten consecutive failing `execute`
calls on a fresh `ArchGuard` leave `is_circuit_open` true; a further call
made before `reset_timeout` (30 s) has elapsed since the last failure is
rejected with `CircuitOpen` without consulting the supplied operation and
without touching the state; and a call made once 30 s have elapsed since
the last failure clears the open flag and failure counter and runs the
supplied operation regardless of its outcome. -/
theorem archguard_circuit_lifecycle {α : Type}
    (calls : List (ℚ × ArchGuardError)) (h10 : calls.length = 10)
    (last : ℚ × ArchGuardError) (hlast : calls.getLast? = some last)
    (t11 t12 : ℚ) (op11 op12 : Except ArchGuardError α) :
    (ArchGuardState.runFailures ArchGuardState.new calls).is_circuit_open = true ∧
    (t11 - last.1 < ArchGuardState.reset_timeout →
      (ArchGuardState.runFailures ArchGuardState.new calls).execute t11 op11 =
        (Except.error ArchGuardError.CircuitOpen,
         ArchGuardState.runFailures ArchGuardState.new calls)) ∧
    (ArchGuardState.reset_timeout ≤ t12 - last.1 →
      ((ArchGuardState.runFailures ArchGuardState.new calls).execute t12 op12).1 = op12 ∧
      ((ArchGuardState.runFailures ArchGuardState.new calls).execute t12 op12).2.circuit_open
        = false ∧
      (∀ v, op12 = Except.ok v →
        ((ArchGuardState.runFailures ArchGuardState.new calls).execute t12 op12).2.failure_count
          = 0) ∧
      (∀ e, op12 = Except.error e →
        ((ArchGuardState.runFailures ArchGuardState.new calls).execute t12 op12).2.failure_count
          = 1)) := by
  have hbase :
      ArchGuardState.new.circuit_open =
        decide (ArchGuardState.failure_threshold ≤ ArchGuardState.new.failure_count) := by
    simp [ArchGuardState.new, ArchGuardState.failure_threshold]
  have hlen : ArchGuardState.new.failure_count + calls.length ≤
      ArchGuardState.failure_threshold := by
    simp [ArchGuardState.new, ArchGuardState.failure_threshold, h10]
  rcases ArchGuardState.runFailures_spec calls ArchGuardState.new hbase hlen with ⟨h1, h2, h3⟩
  set s10 := ArchGuardState.runFailures ArchGuardState.new calls with hs10
  have hopen : s10.circuit_open = true := by
    rw [h2]
    simp [ArchGuardState.new, ArchGuardState.failure_threshold, h10]
  have hlf : s10.last_failure_time = some last.1 := by
    rw [h3, ArchGuardState.lastTimeOf_getLast calls last _ hlast]
  refine ⟨hopen, ?_, ?_⟩
  · intro hlt
    have hsr : s10.should_reset t11 = false := by
      simp [ArchGuardState.should_reset, hlf]
      linarith
    simp [ArchGuardState.execute, hopen, hsr]
  · intro hge
    have hsr : s10.should_reset t12 = true := by
      simp [ArchGuardState.should_reset, hlf]
      linarith
    cases op12 with
    | ok v =>
        refine ⟨?_, ?_, ?_, ?_⟩
        · simp [ArchGuardState.execute, hopen, hsr]
        · simp [ArchGuardState.execute, ArchGuardState.reset_circuit, hopen, hsr]
        · intro w _
          simp [ArchGuardState.execute, ArchGuardState.reset_circuit, hopen, hsr]
        · intro e he
          exact absurd he (by simp)
    | error e =>
        refine ⟨?_, ?_, ?_, ?_⟩
        · simp [ArchGuardState.execute, hopen, hsr]
        · simp [ArchGuardState.execute, ArchGuardState.reset_circuit, hopen, hsr,
            ArchGuardState.failure_threshold]
        · intro v hv
          exact absurd hv (by simp)
        · intro e' _
          simp [ArchGuardState.execute, ArchGuardState.reset_circuit, hopen, hsr]

/-- Ten failing calls at one-second intervals, used to exercise the breaker. -/
def tenFailingCalls : List (ℚ × ArchGuardError) :=
  (List.range 10).map (fun i => ((i : ℚ), ArchGuardError.Timeout))

theorem archguard_circuit_lifecycle_witness :
    (ArchGuardState.runFailures ArchGuardState.new tenFailingCalls).is_circuit_open = true ∧
    (ArchGuardState.runFailures ArchGuardState.new tenFailingCalls).execute 15
        (Except.ok (7 : Nat)) =
      (Except.error ArchGuardError.CircuitOpen,
       ArchGuardState.runFailures ArchGuardState.new tenFailingCalls) ∧
    ((ArchGuardState.runFailures ArchGuardState.new tenFailingCalls).execute 45
        (Except.error (α := Nat) ArchGuardError.Timeout)).1 =
      Except.error ArchGuardError.Timeout := by
  obtain ⟨ho, hrej, hpass⟩ :=
    archguard_circuit_lifecycle (α := Nat) tenFailingCalls (by rfl)
      ((9 : ℚ), ArchGuardError.Timeout) (by rfl) 15 45
      (Except.ok 7) (Except.error ArchGuardError.Timeout)
  exact ⟨ho, hrej (by norm_num [ArchGuardState.reset_timeout]),
    (hpass (by norm_num [ArchGuardState.reset_timeout])).1⟩

/-- C9 (counterexample): a call rejected by the open breaker returns
`CircuitOpen` with the request counter untouched, so it is not true that
every `execute` call records a request.  The state below has the circuit
open after ten failures, the last at time 0, and the rejected call happens
at time 5 (before the 30 s cooldown). -/
theorem archguard_rejected_call_records_no_request :
    (ArchGuardState.execute
        { circuit_open := true, failure_count := 10, last_failure_time := some 0,
          request_count := 3, error_count := 10, latency_count := 0 }
        5 (Except.ok (0 : Nat))).1 = Except.error ArchGuardError.CircuitOpen ∧
    (ArchGuardState.execute
        { circuit_open := true, failure_count := 10, last_failure_time := some 0,
          request_count := 3, error_count := 10, latency_count := 0 }
        5 (Except.ok (0 : Nat))).2.request_count = 3 := by
  constructor <;>
    · simp [ArchGuardState.execute, ArchGuardState.should_reset, ArchGuardState.reset_timeout]
      norm_num

/-- C9 (amended): a call rejected with `CircuitOpen` leaves the state
untouched (in particular it records no request); every call that passes
the breaker increments the request counter; a passing call whose wrapped
operation fails increments the error and failure counters, timestamps the
failure, and returns the operation error unchanged; a passing call whose
operation succeeds resets the failure counter to 0 and returns the value
unchanged. -/
theorem archguard_execute_bookkeeping {α : Type}
    (s : ArchGuardState) (now : ℚ) (op : Except ArchGuardError α) :
    (s.circuit_open = true → s.should_reset now = false →
      s.execute now op = (Except.error ArchGuardError.CircuitOpen, s)) ∧
    (¬ (s.circuit_open = true ∧ s.should_reset now = false) →
      (s.execute now op).2.request_count = s.request_count + 1 ∧
      (∀ v, op = Except.ok v →
        (s.execute now op).1 = Except.ok v ∧ (s.execute now op).2.failure_count = 0) ∧
      (∀ e, op = Except.error e →
        (s.execute now op).1 = Except.error e ∧
        (s.execute now op).2.error_count = s.error_count + 1 ∧
        (s.execute now op).2.last_failure_time = some now ∧
        (s.execute now op).2.failure_count =
          (if s.circuit_open then 0 else s.failure_count) + 1)) := by
  constructor
  · intro ho hr
    simp [ArchGuardState.execute, ho, hr]
  · intro hpass
    have hstate : s.circuit_open = false ∨
        (s.circuit_open = true ∧ s.should_reset now = true) := by
      rcases Bool.eq_false_or_eq_true s.circuit_open with ho | ho
      · rcases Bool.eq_false_or_eq_true (s.should_reset now) with hr | hr
        · exact Or.inr ⟨ho, hr⟩
        · exact absurd ⟨ho, hr⟩ hpass
      · exact Or.inl ho
    refine ⟨?_, ?_, ?_⟩
    · rcases hstate with ho | ⟨ho, hr⟩
      · cases op <;> simp [ArchGuardState.execute, ho]
      · cases op <;> simp [ArchGuardState.execute, ArchGuardState.reset_circuit, ho, hr]
    · intro v hv
      subst hv
      rcases hstate with ho | ⟨ho, hr⟩
      · simp [ArchGuardState.execute, ho]
      · simp [ArchGuardState.execute, ArchGuardState.reset_circuit, ho, hr]
    · intro e he
      subst he
      rcases hstate with ho | ⟨ho, hr⟩
      · simp [ArchGuardState.execute, ho]
      · simp [ArchGuardState.execute, ArchGuardState.reset_circuit, ho, hr]

theorem archguard_execute_bookkeeping_witness :
    (ArchGuardState.execute ArchGuardState.new 0
        (Except.error (α := Nat) ArchGuardError.Timeout)).2.request_count =
      ArchGuardState.new.request_count + 1 ∧
    (ArchGuardState.execute ArchGuardState.new 0
        (Except.error (α := Nat) ArchGuardError.Timeout)).1 =
      Except.error ArchGuardError.Timeout := by
  obtain ⟨-, h2⟩ :=
    archguard_execute_bookkeeping ArchGuardState.new 0
      (Except.error (α := Nat) ArchGuardError.Timeout)
  obtain ⟨hreq, -, herr⟩ := h2 (by simp [ArchGuardState.new])
  exact ⟨hreq, (herr ArchGuardError.Timeout rfl).1⟩

/-! ## EntityRecord (`src/nucleotide.rs`)

`Nucleotide` and its per-tick update.  Fixed arrays are embedded as lists
(`epigenetic_tags` always has four physical slots); `f32` scalars as
rationals. -/

inductive NucleotideBase where
  | Adenine : NucleotideBase
  | Thymine : NucleotideBase
  | Guanine : NucleotideBase
  | Cytosine : NucleotideBase
deriving DecidableEq, Repr

inductive EpigeneticTag where
  | Methylation : EpigeneticTag
  | Acetylation : EpigeneticTag
  | Phosphorylation : EpigeneticTag
  | Ubiquitination : EpigeneticTag
deriving DecidableEq, Repr

structure HistoneState where
  compaction : ℚ
  accessibility : ℚ
  stability : ℚ
  modification_count : Nat
deriving DecidableEq, Repr

/-- `HistoneState::default`. -/
def HistoneState.default : HistoneState :=
  { compaction := 1/2, accessibility := 1/2, stability := 8/10, modification_count := 0 }

def SEMANTIC_VECTOR_SIZE : Nat := 57

structure Nucleotide where
  base : NucleotideBase
  epigenetic_tags : List (EpigeneticTag × ℚ)
  epigenetic_count : Nat
  quantum_noise : ℚ
  histone_state : HistoneState
  semantic_vector : List ℚ
  energy : ℚ
  creation_tick : Nat
  last_access_tick : Nat
  access_count : Nat
deriving DecidableEq, Repr

namespace Nucleotide

/-- `Nucleotide::default`: four zeroed tag slots, zero semantic vector. -/
def default : Nucleotide :=
  { base := NucleotideBase.Adenine
    epigenetic_tags := List.replicate 4 (EpigeneticTag.Methylation, 0)
    epigenetic_count := 0
    quantum_noise := 0
    histone_state := HistoneState.default
    semantic_vector := List.replicate SEMANTIC_VECTOR_SIZE 0
    energy := 1
    creation_tick := 0
    last_access_tick := 0
    access_count := 0 }

/-- The inner shift of `update_epigenetic_tags`: `for j in i..3 { tags[j] =
tags[j+1] }`.  Reads happen before the slot is overwritten in the same
left-to-right order as the source. -/
def shiftTagsFrom (i : Nat) (ts : List (EpigeneticTag × ℚ)) : List (EpigeneticTag × ℚ) :=
  (List.range' i (3 - i)).foldl
    (fun acc j => acc.set j (acc.getD (j + 1) (EpigeneticTag.Methylation, 0))) ts

/-- `Nucleotide::update_epigenetic_tags`.  The decay loop iterates over the
range `0..epigenetic_count` captured before the loop, while removals
shift the array and shrink the live count as they happen — exactly as in
the source.  The trailing block models the probabilistic fresh
modification, consuming one floating draw and, when taken, one tag-kind
draw and one strength draw. -/
def update_epigenetic_tags (dt : ℚ) (n : Nucleotide) (g : Rng) : Nucleotide × Rng :=
  let count0 := n.epigenetic_count
  let decayed := (List.range count0).foldl
    (fun (p : List (EpigeneticTag × ℚ) × Nat) i =>
      let t := p.1.getD i (EpigeneticTag.Methylation, 0)
      let w := t.2 * (1 - 1/100 * dt)
      let ts := p.1.set i (t.1, w)
      if w < 1/100 then (shiftTagsFrom i ts, p.2 - 1) else (ts, p.2))
    (n.epigenetic_tags, count0)
  let (r, g) := g.nextRat
  if r < 1/1000 * dt ∧ decayed.2 < 4 then
    let (k, g) := g.nextNat 4
    let new_tag :=
      match k with
      | 0 => EpigeneticTag.Methylation
      | 1 => EpigeneticTag.Acetylation
      | 2 => EpigeneticTag.Phosphorylation
      | _ => EpigeneticTag.Ubiquitination
    let (strength, g) := g.nextRat
    ({ n with
        epigenetic_tags := decayed.1.set decayed.2 (new_tag, strength)
        epigenetic_count := decayed.2 + 1 }, g)
  else
    ({ n with epigenetic_tags := decayed.1, epigenetic_count := decayed.2 }, g)

/-- `Nucleotide::update_histone_state`. -/
def update_histone_state (dt : ℚ) (n : Nucleotide) : Nucleotide :=
  let live := n.epigenetic_tags.take n.epigenetic_count
  let methylation := live.foldl
    (fun m t => if t.1 = EpigeneticTag.Methylation then t.2 else m) 0
  let acetylation := live.foldl
    (fun a t => if t.1 = EpigeneticTag.Acetylation then t.2 else a) 0
  let target_compaction := 1/2 + 3/10 * methylation - 3/10 * acetylation
  let compaction := n.histone_state.compaction +
    (target_compaction - n.histone_state.compaction) * (1/10) * dt
  { n with histone_state :=
      { n.histone_state with
          compaction := compaction
          accessibility := 1 - compaction * (8/10)
          stability := min (n.histone_state.stability + 1/10000 * dt) 1 } }

/-- `Nucleotide::update`: refresh quantum noise (one floating draw scaled
by accessibility), decay energy with floor 0.1, update tags and histones,
stamp the access tick. -/
def update (dt : ℚ) (current_tick : Nat) (n : Nucleotide) (g : Rng) : Nucleotide × Rng :=
  let (noise, g) := g.nextRat
  let n := { n with quantum_noise := noise * n.histone_state.accessibility }
  let n := { n with energy := max (n.energy * (1 - 1/1000 * dt)) (1/10) }
  let (n, g) := update_epigenetic_tags dt n g
  let n := update_histone_state dt n
  ({ n with last_access_tick := current_tick }, g)

end Nucleotide

/-- C5 (code bug): one `update_epigenetic_tags` step on a record holding a
methylation tag of weight 0.01 (which decays below the 0.01 threshold and
is removed) followed by an acetylation tag of weight 0.5 (whose decayed
weight 0.495 is far above the threshold) ends with no live tags at all:
the removal loop keeps iterating over the stale pre-removal range, decays
the stale slot the shift left behind, and removes it too, dropping the
live count to zero and losing the healthy acetylation tag.  The random
draw 1 rules out a fresh modification. -/
theorem nucleotide_tag_expiry_loses_live_tag :
    (({ Nucleotide.default with
        epigenetic_tags :=
          [(EpigeneticTag.Methylation, 1/100), (EpigeneticTag.Acetylation, 1/2),
           (EpigeneticTag.Methylation, 0), (EpigeneticTag.Methylation, 0)]
        epigenetic_count := 2 } : Nucleotide).epigenetic_tags.getD 1
          (EpigeneticTag.Methylation, 0)).2 * (1 - 1/100 * 1) ≥ 1/100 ∧
    (Nucleotide.update_epigenetic_tags 1
        { Nucleotide.default with
          epigenetic_tags :=
            [(EpigeneticTag.Methylation, 1/100), (EpigeneticTag.Acetylation, 1/2),
             (EpigeneticTag.Methylation, 0), (EpigeneticTag.Methylation, 0)]
          epigenetic_count := 2 }
        { nats := [], bools := [], rats := [1] }).1.epigenetic_count = 0 := by
  constructor
  · norm_num
  · norm_num [Nucleotide.update_epigenetic_tags, Nucleotide.shiftTagsFrom,
      Rng.nextRat, List.range_succ, List.range']

/-! ## Agent (`src/voxel.rs`)

`Voxel` and `VoxelWorld`.  Fixed `f32` arrays become rational lists (the
constructors build them at their source lengths); `HashMap<u64, Voxel>` is
embedded as an association list in iteration order. -/

/-- Elementwise `xs[i] := ka * xs[i] + kb * ys[i]` over the common prefix,
leaving the tail of `xs` unchanged — the shape of every blending loop in
`voxel.rs`. -/
def blendInto (ka kb : ℚ) (xs ys : List ℚ) : List ℚ :=
  List.zipWith (fun x y => ka * x + kb * y) xs ys ++ xs.drop ys.length

structure VoxelMetadata where
  id : Nat
  position : List ℚ
  velocity : List ℚ
  mass : ℚ
  temperature : ℚ
  age_ticks : Nat
  health : ℚ
  energy : ℚ
  state : Nat
deriving DecidableEq, Repr

/-- `VoxelMetadata::default`. -/
def VoxelMetadata.default : VoxelMetadata :=
  { id := 0, position := List.replicate 3 0, velocity := List.replicate 3 0,
    mass := 1, temperature := 300, age_ticks := 0, health := 1, energy := 1, state := 0 }

structure VoxelSensors where
  visual : List (List ℚ)
  audio : List ℚ
  tactile : List (List ℚ)
  chemical : List ℚ
  thermal : List ℚ
deriving DecidableEq, Repr

/-- `VoxelSensors::default`: all channels zero at their source sizes. -/
def VoxelSensors.default : VoxelSensors :=
  { visual := List.replicate 32 (List.replicate 3 0)
    audio := List.replicate 64 0
    tactile := List.replicate 6 (List.replicate 16 0)
    chemical := List.replicate 32 0
    thermal := List.replicate 8 0 }

/-- `VoxelSensors::combined`: concatenation of all channel groups. -/
def VoxelSensors.combined (s : VoxelSensors) : List ℚ :=
  s.visual.flatten ++ s.audio ++ s.tactile.flatten ++ s.chemical ++ s.thermal

structure VoxelPhysics where
  angular_velocity : List ℚ
  orientation : List ℚ
  accumulated_force : List ℚ
  accumulated_torque : List ℚ
  elasticity : ℚ
  friction : ℚ
deriving DecidableEq, Repr

/-- `VoxelPhysics::default`. -/
def VoxelPhysics.default : VoxelPhysics :=
  { angular_velocity := List.replicate 3 0
    orientation := [1, 0, 0, 0]
    accumulated_force := List.replicate 3 0
    accumulated_torque := List.replicate 3 0
    elasticity := 1/2, friction := 3/10 }

/-- `VoxelPhysics::integrate`: returns the acceleration, damps the angular
velocity by 1 %, and resets the force/torque accumulators. -/
def VoxelPhysics.integrate (dt mass : ℚ) (p : VoxelPhysics) : List ℚ × VoxelPhysics :=
  let acceleration := p.accumulated_force.map (fun f => f / mass)
  let angular := List.zipWith (fun av tq => (av + tq / mass * dt) * (99/100))
    p.angular_velocity p.accumulated_torque
  (acceleration,
   { p with
      angular_velocity := angular
      accumulated_force := List.replicate 3 0
      accumulated_torque := List.replicate 3 0 })

structure VoxelThoughts where
  attention_focus : List ℚ
  working_memory : List ℚ
  processing_depth : Nat
deriving DecidableEq, Repr

/-- `VoxelThoughts::default`. -/
def VoxelThoughts.default : VoxelThoughts :=
  { attention_focus := List.replicate 128 0
    working_memory := List.replicate 256 0
    processing_depth := 0 }

/-- `VoxelThoughts::process`: blend the sensory snapshot into the attention
focus (min(len, 128) slots), then blend the focus into both 128-wide
halves of working memory. -/
def VoxelThoughts.process (sensory_input : List ℚ) (t : VoxelThoughts) : VoxelThoughts :=
  let af := blendInto (9/10) (1/10) t.attention_focus (sensory_input.take 128)
  let wm := blendInto (19/20) (1/20) (t.working_memory.take 128) (af.take 128) ++
    blendInto (19/20) (1/20) (t.working_memory.drop 128) (af.take 128)
  { t with attention_focus := af, working_memory := wm }

structure VoxelEmotions where
  base_emotions : List ℚ
  emotion_vector : List ℚ
  kaif : ℚ
  prev_entropy : ℚ
deriving DecidableEq, Repr

/-- `VoxelEmotions::default`. -/
def VoxelEmotions.default : VoxelEmotions :=
  { base_emotions := List.replicate 8 (1/2)
    emotion_vector := List.replicate 256 0
    kaif := 0, prev_entropy := 0 }

/-- `VoxelEmotions::compute_kaif`, with `f32::log2` passed as `log2`.
When the absolute sum is below 1e-8 the method zeroes `kaif` and returns
without touching `prev_entropy`; otherwise it updates `kaif` only when
`dt > 0` and always stores the fresh entropy. -/
def VoxelEmotions.compute_kaif (log2 : ℚ → ℚ) (dt : ℚ) (e : VoxelEmotions) : VoxelEmotions :=
  let sum := (e.emotion_vector.map (fun x => |x|)).sum
  if sum < 1/100000000 then
    { e with kaif := 0 }
  else
    let entropy := e.emotion_vector.foldl
      (fun acc v =>
        let p := |v| / sum
        if p > 1/10000000000 then acc - p * log2 p else acc) 0
    let e :=
      if 0 < dt then { e with kaif := |(entropy - e.prev_entropy) / dt| } else e
    { e with prev_entropy := entropy }

/-- `VoxelEmotions::update`: blend thoughts into the 256-wide emotion
vector, recompute the eight coarse emotions as blockwise means of
absolute values, then recompute `kaif`. -/
def VoxelEmotions.update (log2 : ℚ → ℚ) (thoughts : VoxelThoughts) (dt : ℚ)
    (e : VoxelEmotions) : VoxelEmotions :=
  let ev := blendInto (4/5) (1/5) (e.emotion_vector.take 128) thoughts.attention_focus ++
    blendInto (4/5) (1/5) (e.emotion_vector.drop 128) (thoughts.working_memory.take 128)
  let base := (List.range 8).map (fun i =>
    let sum := (((ev.drop (i * 32)).take 32).map (fun x => |x|)).sum
    let avg := sum / 32
    19/20 * (e.base_emotions.getD i 0) + 1/20 * avg)
  VoxelEmotions.compute_kaif log2 dt
    { e with emotion_vector := ev, base_emotions := base }

structure VoxelMemory where
  long_term : List ℚ
  episodes : List (List ℚ)
  write_count : Nat
deriving DecidableEq, Repr

/-- `VoxelMemory::default`. -/
def VoxelMemory.default : VoxelMemory :=
  { long_term := List.replicate 256 0, episodes := [], write_count := 0 }

/-- `VoxelMemory::store`: pad/truncate the experience to a 64-wide episode,
blend it into the rotating 64-wide long-term slice selected by
`write_count % 4`, and push it onto the ≤16-entry ring buffer. -/
def VoxelMemory.store (experience : List ℚ) (importance : ℚ) (m : VoxelMemory) :
    VoxelMemory :=
  let episode := experience.take 64 ++ List.replicate (64 - experience.length) 0
  let learning_rate := 1/10 * importance
  let start_idx := (m.write_count % 4) * 64
  let long_term := m.long_term.take start_idx ++
    blendInto (1 - learning_rate) learning_rate
      ((m.long_term.drop start_idx).take 64) episode ++
    m.long_term.drop (start_idx + 64)
  let episodes := if 16 ≤ m.episodes.length then m.episodes.drop 1 else m.episodes
  { long_term := long_term, episodes := episodes ++ [episode],
    write_count := m.write_count + 1 }

structure Voxel where
  metadata : VoxelMetadata
  sensors : VoxelSensors
  physics : VoxelPhysics
  thoughts : VoxelThoughts
  emotions : VoxelEmotions
  memory : VoxelMemory
deriving DecidableEq, Repr

namespace Voxel

/-- `Voxel::new`. -/
def new (id : Nat) : Voxel :=
  { metadata := { VoxelMetadata.default with id := id }
    sensors := VoxelSensors.default
    physics := VoxelPhysics.default
    thoughts := VoxelThoughts.default
    emotions := VoxelEmotions.default
    memory := VoxelMemory.default }

/-- `Voxel::with_position`. -/
def with_position (pos : List ℚ) (v : Voxel) : Voxel :=
  { v with metadata := { v.metadata with position := pos } }

/-- `Voxel::update_vitals`: energy drains at 0.001/s, recovers on high
kaif, and is clamped to [0,1]; health drifts down on low energy and up
otherwise, and is clamped to [0,1]. -/
def update_vitals (dt : ℚ) (v : Voxel) : Voxel :=
  let energy := v.metadata.energy - 1/1000 * dt
  let energy :=
    if 7/10 < v.emotions.kaif then energy + 2/1000 * dt * v.emotions.kaif else energy
  let energy := clamp01 energy
  let health :=
    if energy < 1/10 then v.metadata.health - 1/1000 * dt
    else v.metadata.health + 1/10000 * dt
  let health := clamp01 health
  { v with metadata := { v.metadata with energy := energy, health := health } }

/-- `Voxel::update`: the five-phase pipeline — physics, thoughts, emotions,
conditional memory write, vitals. -/
def update (log2 : ℚ → ℚ) (dt : ℚ) (v : Voxel) : Voxel :=
  let md := { v.metadata with age_ticks := v.metadata.age_ticks + 1 }
  let (acceleration, physics) := v.physics.integrate dt md.mass
  let velocity := List.zipWith (fun vel a => vel + a * dt) md.velocity acceleration
  let position := List.zipWith (fun pos vel => pos + vel * dt) md.position velocity
  let md := { md with velocity := velocity, position := position }
  let thoughts := v.thoughts.process v.sensors.combined
  let emotions := v.emotions.update log2 thoughts dt
  let memory :=
    if 1/2 < emotions.kaif then
      let experience := thoughts.attention_focus.take 32 ++ emotions.base_emotions
      let experience := experience.take 64 ++ List.replicate (64 - experience.length) 0
      v.memory.store experience emotions.kaif
    else v.memory
  update_vitals dt
    { v with
        metadata := md
        physics := physics
        thoughts := thoughts
        emotions := emotions
        memory := memory }

/-- `Voxel::is_alive`. -/
def is_alive (v : Voxel) : Bool := decide (0 < v.metadata.health)

end Voxel

structure VoxelWorld where
  voxels : List (Nat × Voxel)
  max_voxels : Nat
  next_id : Nat
  current_tick : Nat
  total_kaif : ℚ
  avg_health : ℚ
  avg_energy : ℚ
deriving DecidableEq, Repr

namespace VoxelWorld

/-- `VoxelWorld::new`. -/
def new (max_voxels : Nat) : VoxelWorld :=
  { voxels := [], max_voxels := max_voxels, next_id := 0, current_tick := 0,
    total_kaif := 0, avg_health := 1, avg_energy := 1 }

/-- Rust's `Iterator::min_by` comparing voxel health: the first entry
attaining the minimum wins, matching the first-found tie-break of the
iteration order. -/
def minByHealth : List (Nat × Voxel) → Option (Nat × Voxel)
  | [] => none
  | p :: ps =>
      some (ps.foldl
        (fun best q => if q.2.metadata.health < best.2.metadata.health then q else best) p)

/-- `HashMap::remove` on the association-list embedding. -/
def eraseKey (id : Nat) : List (Nat × Voxel) → List (Nat × Voxel)
  | [] => []
  | p :: ps => if p.1 = id then ps else p :: eraseKey id ps

/-- `VoxelWorld::spawn`: when at or above capacity, remove the first
minimum-health voxel (a no-op on an empty world), then insert a fresh
voxel under the next monotone id. -/
def spawn (w : VoxelWorld) (position : List ℚ) : Nat × VoxelWorld :=
  let voxels :=
    if w.max_voxels ≤ w.voxels.length then
      match minByHealth w.voxels with
      | some p => eraseKey p.1 w.voxels
      | none => w.voxels
    else w.voxels
  let id := w.next_id
  (id,
   { w with
      voxels := voxels ++ [(id, (Voxel.new id).with_position position)]
      next_id := id + 1 })

/-- `VoxelWorld::count`. -/
def count (w : VoxelWorld) : Nat := w.voxels.length

/-- `VoxelWorld::update`: bump the tick, drop dead voxels, run the full
per-voxel update over the survivors, and recompute the aggregate
statistics when the surviving population is nonempty. -/
def update (log2 : ℚ → ℚ) (dt : ℚ) (w : VoxelWorld) : VoxelWorld :=
  let alive := w.voxels.filter (fun p => p.2.is_alive)
  let updated := alive.map (fun p => (p.1, p.2.update log2 dt))
  let total_kaif := (updated.map (fun p => p.2.emotions.kaif)).sum
  let total_health := (updated.map (fun p => p.2.metadata.health)).sum
  let total_energy := (updated.map (fun p => p.2.metadata.energy)).sum
  let n : ℚ := updated.length
  if 0 < n then
    { w with
        current_tick := w.current_tick + 1
        voxels := updated
        total_kaif := total_kaif
        avg_health := total_health / n
        avg_energy := total_energy / n }
  else
    { w with current_tick := w.current_tick + 1, voxels := updated }

end VoxelWorld

theorem Voxel.update_vitals_bounds (dt : ℚ) (v : Voxel) :
    0 ≤ (Voxel.update_vitals dt v).metadata.health ∧
    (Voxel.update_vitals dt v).metadata.health ≤ 1 ∧
    0 ≤ (Voxel.update_vitals dt v).metadata.energy ∧
    (Voxel.update_vitals dt v).metadata.energy ≤ 1 := by
  unfold Voxel.update_vitals
  refine ⟨?_, ?_, ?_, ?_⟩ <;>
    first
      | exact (clamp01_mem _).1
      | exact (clamp01_mem _).2

theorem Voxel.update_is_vitals (log2 : ℚ → ℚ) (dt : ℚ) (v : Voxel) :
    ∃ v', Voxel.update log2 dt v = Voxel.update_vitals dt v' :=
  ⟨_, rfl⟩

theorem Voxel.update_bounds (log2 : ℚ → ℚ) (dt : ℚ) (v : Voxel) :
    0 ≤ (Voxel.update log2 dt v).metadata.health ∧
    (Voxel.update log2 dt v).metadata.health ≤ 1 ∧
    0 ≤ (Voxel.update log2 dt v).metadata.energy ∧
    (Voxel.update log2 dt v).metadata.energy ≤ 1 := by
  obtain ⟨v', hv⟩ := Voxel.update_is_vitals log2 dt v
  rw [hv]
  exact Voxel.update_vitals_bounds dt v'

theorem Voxel.foldl_update_bounds (log2 : ℚ → ℚ) (dts : List ℚ) :
    ∀ v : Voxel,
      (dts ≠ [] ∨
        (0 ≤ v.metadata.health ∧ v.metadata.health ≤ 1 ∧
         0 ≤ v.metadata.energy ∧ v.metadata.energy ≤ 1)) →
      0 ≤ (dts.foldl (fun w dt => w.update log2 dt) v).metadata.health ∧
      (dts.foldl (fun w dt => w.update log2 dt) v).metadata.health ≤ 1 ∧
      0 ≤ (dts.foldl (fun w dt => w.update log2 dt) v).metadata.energy ∧
      (dts.foldl (fun w dt => w.update log2 dt) v).metadata.energy ≤ 1 := by
  induction dts with
  | nil =>
      intro v h
      rcases h with h | h
      · exact absurd rfl h
      · simpa using h
  | cons a t ih =>
      intro v _
      simp only [List.foldl_cons]
      exact ih (v.update log2 a) (Or.inr (Voxel.update_bounds log2 a v))

/-- C3: for every agent and every sequence of `update(dt)` calls with
`dt ≥ 0`, health and energy lie in [0,1] after each call, given they start
in [0,1].  (The vitals phase clamps both to [0,1] unconditionally, so the
invariant holds after every step of the sequence.) -/
theorem voxel_health_energy_invariant (log2 : ℚ → ℚ) (v : Voxel) (dts : List ℚ)
    (hne : dts ≠ []) (hdt : ∀ dt ∈ dts, 0 ≤ dt)
    (hh : 0 ≤ v.metadata.health ∧ v.metadata.health ≤ 1)
    (he : 0 ≤ v.metadata.energy ∧ v.metadata.energy ≤ 1) :
    0 ≤ (dts.foldl (fun w dt => w.update log2 dt) v).metadata.health ∧
    (dts.foldl (fun w dt => w.update log2 dt) v).metadata.health ≤ 1 ∧
    0 ≤ (dts.foldl (fun w dt => w.update log2 dt) v).metadata.energy ∧
    (dts.foldl (fun w dt => w.update log2 dt) v).metadata.energy ≤ 1 :=
  Voxel.foldl_update_bounds log2 dts v (Or.inl hne)

theorem voxel_health_energy_invariant_witness :
    0 ≤ (([1] : List ℚ).foldl (fun w dt => w.update (fun _ => 0) dt)
        (Voxel.new 0)).metadata.health ∧
    (([1] : List ℚ).foldl (fun w dt => w.update (fun _ => 0) dt)
        (Voxel.new 0)).metadata.health ≤ 1 ∧
    0 ≤ (([1] : List ℚ).foldl (fun w dt => w.update (fun _ => 0) dt)
        (Voxel.new 0)).metadata.energy ∧
    (([1] : List ℚ).foldl (fun w dt => w.update (fun _ => 0) dt)
        (Voxel.new 0)).metadata.energy ≤ 1 :=
  voxel_health_energy_invariant (fun _ => 0) (Voxel.new 0) [1]
    (by simp)
    (by intro dt h; simp at h; simp [h])
    (by norm_num [Voxel.new, VoxelMetadata.default])
    (by norm_num [Voxel.new, VoxelMetadata.default])

namespace VoxelWorld

theorem minByHealth_foldl_mem (ps : List (Nat × Voxel)) :
    ∀ best : Nat × Voxel,
      ps.foldl (fun b q => if q.2.metadata.health < b.2.metadata.health then q else b) best
        = best ∨
      ps.foldl (fun b q => if q.2.metadata.health < b.2.metadata.health then q else b) best
        ∈ ps := by
  induction ps with
  | nil => intro best; exact Or.inl rfl
  | cons q ps ih =>
      intro best
      simp only [List.foldl_cons]
      by_cases h : q.2.metadata.health < best.2.metadata.health
      · simp only [if_pos h]
        rcases ih q with h1 | h1
        · exact Or.inr (by simp [h1])
        · exact Or.inr (List.mem_cons_of_mem q h1)
      · simp only [if_neg h]
        rcases ih best with h1 | h1
        · exact Or.inl h1
        · exact Or.inr (List.mem_cons_of_mem q h1)

theorem minByHealth_foldl_le (ps : List (Nat × Voxel)) :
    ∀ best : Nat × Voxel,
      (ps.foldl (fun b q => if q.2.metadata.health < b.2.metadata.health then q else b)
          best).2.metadata.health ≤ best.2.metadata.health ∧
      ∀ q ∈ ps,
        (ps.foldl (fun b q => if q.2.metadata.health < b.2.metadata.health then q else b)
            best).2.metadata.health ≤ q.2.metadata.health := by
  induction ps with
  | nil => intro best; exact ⟨le_refl _, by simp⟩
  | cons q ps ih =>
      intro best
      simp only [List.foldl_cons]
      by_cases h : q.2.metadata.health < best.2.metadata.health
      · simp only [if_pos h]
        rcases ih q with ⟨h1, h2⟩
        refine ⟨le_trans h1 (le_of_lt h), ?_⟩
        intro r hr
        rcases List.mem_cons.mp hr with rfl | hr
        · exact h1
        · exact h2 r hr
      · simp only [if_neg h]
        rcases ih best with ⟨h1, h2⟩
        refine ⟨h1, ?_⟩
        intro r hr
        rcases List.mem_cons.mp hr with rfl | hr
        · exact le_trans h1 (le_of_not_lt h)
        · exact h2 r hr

theorem minByHealth_mem (l : List (Nat × Voxel)) (p : Nat × Voxel)
    (h : minByHealth l = some p) : p ∈ l := by
  cases l with
  | nil => simp [minByHealth] at h
  | cons a ps =>
      simp only [minByHealth, Option.some.injEq] at h
      rcases minByHealth_foldl_mem ps a with h1 | h1
      · rw [← h, h1]; exact List.mem_cons_self a ps
      · exact h ▸ List.mem_cons_of_mem a h1

theorem minByHealth_le (l : List (Nat × Voxel)) (p : Nat × Voxel)
    (h : minByHealth l = some p) :
    ∀ q ∈ l, p.2.metadata.health ≤ q.2.metadata.health := by
  cases l with
  | nil => simp [minByHealth] at h
  | cons a ps =>
      simp only [minByHealth, Option.some.injEq] at h
      intro q hq
      rcases minByHealth_foldl_le ps a with ⟨h1, h2⟩
      rcases List.mem_cons.mp hq with rfl | hq
      · exact h ▸ h1
      · exact h ▸ h2 q hq

theorem minByHealth_isSome (l : List (Nat × Voxel)) (h : l ≠ []) :
    ∃ p, minByHealth l = some p := by
  cases l with
  | nil => exact absurd rfl h
  | cons a ps => exact ⟨_, rfl⟩

theorem eraseKey_length (id : Nat) :
    ∀ l : List (Nat × Voxel), (∃ q ∈ l, q.1 = id) →
      (eraseKey id l).length + 1 = l.length := by
  intro l
  induction l with
  | nil => intro h; simp at h
  | cons a ps ih =>
      intro h
      by_cases ha : a.1 = id
      · simp [eraseKey, ha]
      · rcases h with ⟨q, hq, hqid⟩
        rcases List.mem_cons.mp hq with rfl | hq
        · exact absurd hqid ha
        · simp only [eraseKey, if_neg ha, List.length_cons]
          rw [← ih ⟨q, hq, hqid⟩]

end VoxelWorld

/-- C4 (counterexample): with capacity `max_voxels = 0` the world is "at
capacity" while empty, the eviction finds nothing to remove, and `spawn`
still inserts — so the world size exceeds the capacity. -/
theorem voxelworld_spawn_exceeds_zero_capacity :
    ((VoxelWorld.new 0).spawn [0, 0, 0]).2.count = 1 ∧
    ((VoxelWorld.new 0).spawn [0, 0, 0]).2.max_voxels = 0 := by
  constructor <;> rfl

theorem VoxelWorld.spawn_count_le (w : VoxelWorld) (pos : List ℚ)
    (hc : 1 ≤ w.max_voxels) (hlen : w.voxels.length ≤ w.max_voxels) :
    (w.spawn pos).2.count ≤ w.max_voxels ∧
    (w.spawn pos).2.max_voxels = w.max_voxels := by
  by_cases hfull : w.max_voxels ≤ w.voxels.length
  · have hne : w.voxels ≠ [] := by
      intro h
      rw [h] at hfull
      simp at hfull
      omega
    obtain ⟨p, hp⟩ := minByHealth_isSome w.voxels hne
    have hmem := minByHealth_mem w.voxels p hp
    have hlen' := eraseKey_length p.1 w.voxels ⟨p, hmem, rfl⟩
    constructor
    · simp only [spawn, count, if_pos hfull, hp]
      simp only [List.length_append, List.length_cons, List.length_nil]
      omega
    · simp [spawn]
  · constructor
    · simp only [spawn, count, if_neg hfull]
      simp only [List.length_append, List.length_cons, List.length_nil]
      omega
    · simp [spawn]

/-- C4 (amended): when `spawn` is called at or above capacity on a
*nonempty* world it first removes exactly one agent of minimal health
(strictly minimal when the health values are pairwise distinct) before
inserting, and for every capacity ≥ 1 the world size never exceeds the
capacity over any sequence of `spawn` calls from a fresh world.  (With
capacity 0 the size invariant fails, as the counterexample shows.) -/
theorem voxelworld_spawn_eviction_and_capacity (w : VoxelWorld) (pos : List ℚ)
    (hfull : w.max_voxels ≤ w.voxels.length) (hne : w.voxels ≠ [])
    (c : Nat) (hc : 1 ≤ c) (positions : List (List ℚ)) :
    (∃ p, VoxelWorld.minByHealth w.voxels = some p ∧ p ∈ w.voxels ∧
      (∀ q ∈ w.voxels, p.2.metadata.health ≤ q.2.metadata.health) ∧
      (w.voxels.Pairwise
          (fun a b => a.2.metadata.health ≠ b.2.metadata.health) →
        ∀ q ∈ w.voxels, q ≠ p → p.2.metadata.health < q.2.metadata.health) ∧
      (w.spawn pos).2.voxels =
        VoxelWorld.eraseKey p.1 w.voxels ++
          [(w.next_id, (Voxel.new w.next_id).with_position pos)] ∧
      (w.spawn pos).2.count = w.voxels.length) ∧
    (positions.foldl (fun world q => (world.spawn q).2) (VoxelWorld.new c)).count ≤ c := by
  constructor
  · obtain ⟨p, hp⟩ := VoxelWorld.minByHealth_isSome w.voxels hne
    have hmem := VoxelWorld.minByHealth_mem w.voxels p hp
    have hle := VoxelWorld.minByHealth_le w.voxels p hp
    refine ⟨p, hp, hmem, hle, ?_, ?_, ?_⟩
    · intro hdist q hq hqp
      rcases lt_or_eq_of_le (hle q hq) with h | h
      · exact h
      · exfalso
        have hsymm :
            Symmetric (fun a b : Nat × Voxel =>
              a.2.metadata.health ≠ b.2.metadata.health) := by
          intro a b hab
          exact hab.symm
        exact (hdist.forall hsymm hmem hq (fun hpq => hqp hpq.symm)) h
    · simp [VoxelWorld.spawn, if_pos hfull, hp]
    · have hlen' := VoxelWorld.eraseKey_length p.1 w.voxels ⟨p, hmem, rfl⟩
      simp only [VoxelWorld.spawn, VoxelWorld.count, if_pos hfull, hp]
      simp only [List.length_append, List.length_cons, List.length_nil]
      omega
  · have hstep :
        ∀ (world : VoxelWorld) (q : List ℚ), world.max_voxels = c →
          world.voxels.length ≤ c →
          (world.spawn q).2.max_voxels = c ∧ (world.spawn q).2.count ≤ c := by
      intro world q hmax hwlen
      obtain ⟨h1, h2⟩ := VoxelWorld.spawn_count_le world q (hmax ▸ hc) (hmax ▸ hwlen)
      exact ⟨hmax ▸ h2, hmax ▸ h1⟩
    have : ∀ (ps : List (List ℚ)) (world : VoxelWorld),
        world.max_voxels = c → world.voxels.length ≤ c →
        (ps.foldl (fun wrld q => (wrld.spawn q).2) world).count ≤ c := by
      intro ps
      induction ps with
      | nil => intro world _ h2; simpa [VoxelWorld.count] using h2
      | cons q ps ih =>
          intro world h1 h2
          simp only [List.foldl_cons]
          obtain ⟨h3, h4⟩ := hstep world q h1 h2
          exact ih (world.spawn q).2 h3 h4
    exact this positions (VoxelWorld.new c) rfl (by simp [VoxelWorld.new])

theorem voxelworld_spawn_eviction_and_capacity_witness :
    ((((VoxelWorld.new 1).spawn [0, 0, 0]).2.spawn [1, 1, 1]).2).count
      = (((VoxelWorld.new 1).spawn [0, 0, 0]).2).voxels.length ∧
    (([[0, 0, 0], [1, 1, 1]] : List (List ℚ)).foldl
        (fun world q => (world.spawn q).2) (VoxelWorld.new 1)).count ≤ 1 := by
  obtain ⟨⟨p, hp, hmem, hle, hstrict, heq, hcount⟩, hcap⟩ :=
    voxelworld_spawn_eviction_and_capacity (((VoxelWorld.new 1).spawn [0, 0, 0]).2)
      [1, 1, 1]
      (by simp [VoxelWorld.spawn, VoxelWorld.new])
      (by simp [VoxelWorld.spawn, VoxelWorld.new])
      1 (by norm_num) [[0, 0, 0], [1, 1, 1]]
  exact ⟨hcount, hcap⟩

/-! ## MetricEngine (`src/kaif.rs`)

`KaifEngine` and its entropy computation.  `f32::log2` is passed in as the
parameter `log2`; `HashMap<String, Component>` is embedded as an
association list in iteration order. -/

inductive KaifState where
  | Dormant : KaifState
  | Calm : KaifState
  | Active : KaifState
  | Excited : KaifState
  | Ecstatic : KaifState
deriving DecidableEq, Repr

namespace KaifState

/-- `KaifState::from_kaif`: classification by the fixed thresholds. -/
def from_kaif (kaif : ℚ) : KaifState :=
  if kaif < 1/10 then Dormant
  else if kaif < 3/10 then Calm
  else if kaif < 6/10 then Active
  else if kaif < 8/10 then Excited
  else Ecstatic

/-- `KaifState::as_str`. -/
def as_str : KaifState → String
  | Dormant => "dormant"
  | Calm => "calm"
  | Active => "active"
  | Excited => "excited"
  | Ecstatic => "ecstatic"

end KaifState

/-- `compute_entropy`: Shannon entropy of the absolute-value-normalized
vector, 0 when the absolute sum is below 1e-10; `f32::log2` is the
parameter `log2`. -/
def compute_entropy (log2 : ℚ → ℚ) (data : List ℚ) : ℚ :=
  let sum := (data.map (fun x => |x|)).sum
  if sum < 1/10000000000 then 0
  else
    data.foldl
      (fun acc v =>
        let p := |v| / sum
        if p > 1/10000000000 then acc - p * log2 p else acc) 0

structure KaifMetrics where
  instant : ℚ
  smoothed : ℚ
  max_ever : ℚ
  average : ℚ
  variance : ℚ
  state : KaifState
  history : List ℚ
  history_size : Nat
deriving DecidableEq, Repr

/-- `KaifMetrics::default`. -/
def KaifMetrics.default : KaifMetrics :=
  { instant := 0, smoothed := 0, max_ever := 0, average := 0, variance := 0,
    state := KaifState.Calm, history := [], history_size := 100 }

/-- `KaifMetrics::update`: exponential smoothing, running max, bounded
history, mean/variance, and state classification of the smoothed value. -/
def KaifMetrics.update (new_kaif smoothing : ℚ) (m : KaifMetrics) : KaifMetrics :=
  let smoothed := (1 - smoothing) * m.smoothed + smoothing * new_kaif
  let history := m.history ++ [new_kaif]
  let history := if m.history_size < history.length then history.drop 1 else history
  let average :=
    if history ≠ [] then history.sum / (history.length : ℚ) else m.average
  let variance :=
    if history ≠ [] then
      ((history.map (fun x => (x - average) ^ 2)).sum) / (history.length : ℚ)
    else m.variance
  { m with
      instant := new_kaif
      smoothed := smoothed
      max_ever := max m.max_ever new_kaif
      history := history
      average := average
      variance := variance
      state := KaifState.from_kaif smoothed }

structure KaifComponent where
  current : List ℚ
  previous : List ℚ
  weight : ℚ
deriving DecidableEq, Repr

structure KaifEngine where
  metrics : KaifMetrics
  components : List (String × KaifComponent)
  update_count : Nat
deriving DecidableEq, Repr

namespace KaifEngine

/-- `KaifEngine::new`. -/
def new : KaifEngine :=
  { metrics := KaifMetrics.default, components := [], update_count := 0 }

/-- `KaifEngine::register_component` (`HashMap::insert`): replaces an
existing entry or appends a fresh one. -/
def register_component (name : String) (initial : List ℚ) (weight : ℚ)
    (e : KaifEngine) : KaifEngine :=
  let comp : KaifComponent := { current := initial, previous := initial, weight := weight }
  if e.components.any (fun p => p.1 = name) then
    { e with components :=
        e.components.map (fun p => if p.1 = name then (name, comp) else p) }
  else
    { e with components := e.components ++ [(name, comp)] }

/-- `KaifEngine::update_component`: shift current to previous and store the
new state; a no-op for unregistered names. -/
def update_component (name : String) (new_state : List ℚ) (e : KaifEngine) : KaifEngine :=
  { e with components :=
      e.components.map (fun p =>
        if p.1 = name then
          (p.1, { p.2 with previous := p.2.current, current := new_state })
        else p) }

/-- `KaifEngine::compute_total_kaif`: 0 when `dt ≤ 0` or no components;
otherwise the weight-normalized average of `|Δentropy/dt|` over the
components. -/
def compute_total_kaif (log2 : ℚ → ℚ) (dt : ℚ) (e : KaifEngine) : ℚ :=
  if dt ≤ 0 ∨ e.components = [] then 0
  else
    let totals := e.components.foldl
      (fun (acc : ℚ × ℚ) p =>
        let entropy_current := compute_entropy log2 p.2.current
        let entropy_prev := compute_entropy log2 p.2.previous
        let d_entropy := (entropy_current - entropy_prev) / dt
        (acc.1 + |d_entropy| * p.2.weight, acc.2 + p.2.weight))
      (0, 0)
    if 0 < totals.2 then totals.1 / totals.2 else 0

/-- `KaifEngine::update`. -/
def update (log2 : ℚ → ℚ) (dt : ℚ) (e : KaifEngine) : KaifEngine :=
  let kaif := compute_total_kaif log2 dt e
  { e with
      update_count := e.update_count + 1
      metrics := e.metrics.update kaif (1/10) }

/-- `KaifEngine::get_state`. -/
def get_state (e : KaifEngine) : KaifState := e.metrics.state

/-- `KaifEngine::get_kaif`. -/
def get_kaif (e : KaifEngine) : ℚ := e.metrics.smoothed

end KaifEngine

theorem compute_entropy_zero (log2 : ℚ → ℚ) (data : List ℚ)
    (h : ∀ x ∈ data, x = 0) : compute_entropy log2 data = 0 := by
  have hsum : (data.map (fun x => |x|)).sum = 0 := by
    rw [List.sum_eq_zero]
    intro x hx
    rcases List.mem_map.mp hx with ⟨y, hy, rfl⟩
    rw [h y hy]
    exact abs_zero
  unfold compute_entropy
  rw [hsum]
  norm_num

/-- C8: `compute_total_kaif` returns 0 whenever `dt ≤ 0` or no components
are registered, and for `dt > 0` it returns exactly 0 whenever every
registered component holds all-zero current and previous vectors. -/
theorem kaif_compute_total_zero (log2 : ℚ → ℚ) (dt : ℚ) (e : KaifEngine) :
    (dt ≤ 0 → e.compute_total_kaif log2 dt = 0) ∧
    (e.components = [] → e.compute_total_kaif log2 dt = 0) ∧
    (0 < dt →
      (∀ p ∈ e.components,
        (∀ x ∈ p.2.current, x = (0 : ℚ)) ∧ (∀ x ∈ p.2.previous, x = (0 : ℚ))) →
      e.compute_total_kaif log2 dt = 0) := by
  refine ⟨?_, ?_, ?_⟩
  · intro h
    simp [KaifEngine.compute_total_kaif, h]
  · intro h
    simp [KaifEngine.compute_total_kaif, h]
  · intro hdt hzero
    by_cases hcomp : e.components = []
    · simp [KaifEngine.compute_total_kaif, hcomp]
    · unfold KaifEngine.compute_total_kaif
      rw [if_neg (by push_neg; exact ⟨by linarith, hcomp⟩)]
      have hfold : ∀ (l : List (String × KaifComponent)) (w : ℚ),
          (∀ p ∈ l,
            (∀ x ∈ p.2.current, x = (0 : ℚ)) ∧ (∀ x ∈ p.2.previous, x = (0 : ℚ))) →
          (l.foldl
            (fun (acc : ℚ × ℚ) p =>
              let entropy_current := compute_entropy log2 p.2.current
              let entropy_prev := compute_entropy log2 p.2.previous
              let d_entropy := (entropy_current - entropy_prev) / dt
              (acc.1 + |d_entropy| * p.2.weight, acc.2 + p.2.weight))
            (0, w)).1 = 0 := by
        intro l
        induction l with
        | nil => intro w _; rfl
        | cons p ps ih =>
            intro w hz
            have hp := hz p (List.mem_cons_self p ps)
            have h1 : compute_entropy log2 p.2.current = 0 :=
              compute_entropy_zero log2 _ hp.1
            have h2 : compute_entropy log2 p.2.previous = 0 :=
              compute_entropy_zero log2 _ hp.2
            simp only [List.foldl_cons, h1, h2]
            norm_num
            exact ih (w + p.2.weight) (fun q hq => hz q (List.mem_cons_of_mem p hq))
      simp only [hfold e.components 0 hzero]
      split <;> simp

theorem kaif_compute_total_zero_witness :
    (0 : ℚ) < 1 ∧
    KaifEngine.compute_total_kaif (fun _ => 0) 1
      { metrics := KaifMetrics.default
        components :=
          [("a", { current := [0, 0], previous := [0, 0], weight := 3/10 }),
           ("b", { current := [0, 0, 0], previous := [0, 0, 0], weight := 1/2 })]
        update_count := 0 } = 0 := by
  refine ⟨by norm_num, ?_⟩
  refine (kaif_compute_total_zero (fun _ => 0) 1 _).2.2 (by norm_num) ?_
  intro p hp
  simp only [List.mem_cons] at hp
  rcases hp with rfl | hp
  · constructor <;> (intro x hx; simpa using hx)
  · rcases hp with rfl | hp
    · constructor <;> (intro x hx; simpa using hx)
    · simp at hp

/-! ## PatternCache (`src/light_pattern.rs`)

`LightPattern` and `PatternDatabase`.  `f32::sqrt` is passed to the cosine
similarity as a function parameter; `ratSqrt` below is an exact square
root on perfect rational squares, used to instantiate it at concrete
inputs. -/

/-- Exact square root for rationals: correct (`ratSqrt (q * q) = q`) on
squares of nonnegative rationals. -/
def ratSqrt (q : ℚ) : ℚ := (Int.sqrt q.num : ℚ) / (Nat.sqrt q.den : ℚ)

theorem ratSqrt_mul_self (q : ℚ) (h : 0 ≤ q) : ratSqrt (q * q) = q := by
  unfold ratSqrt
  rw [Rat.mul_self_num, Rat.mul_self_den]
  rw [Int.sqrt_eq, Nat.sqrt_eq]
  rw [Int.natAbs_of_nonneg (Rat.num_nonneg.mpr h)]
  exact_mod_cast Rat.num_div_den q

structure MaterialProps where
  roughness : ℚ
  metalness : ℚ
  albedo : List ℚ
  emission : List ℚ
deriving DecidableEq, Repr

/-- `MaterialProps::default`. -/
def MaterialProps.default : MaterialProps :=
  { roughness := 1/2, metalness := 0,
    albedo := [8/10, 8/10, 8/10], emission := [0, 0, 0] }

structure LightPattern where
  id : Nat
  direct_lighting : List (List ℚ)
  indirect_lighting : List (List ℚ)
  sh_coeffs : List (List ℚ)
  material : MaterialProps
  importance : ℚ
  use_count : Nat
deriving DecidableEq, Repr

namespace LightPattern

/-- `LightPattern::default`. -/
def default : LightPattern :=
  { id := 0
    direct_lighting := List.replicate 32 (List.replicate 3 0)
    indirect_lighting := List.replicate 32 (List.replicate 3 0)
    sh_coeffs := List.replicate 9 (List.replicate 3 0)
    material := MaterialProps.default
    importance := 1
    use_count := 0 }

/-- `LightPattern::feature_vector`: direct lighting, indirect lighting, SH
coefficients, then roughness, metalness and albedo (emission excluded). -/
def feature_vector (p : LightPattern) : List ℚ :=
  p.direct_lighting.flatten ++ p.indirect_lighting.flatten ++ p.sh_coeffs.flatten ++
    [p.material.roughness, p.material.metalness] ++ p.material.albedo

end LightPattern

/-- `cosine_similarity`, with `f32::sqrt` passed as `sqrt`: 0 whenever the
product of squared norms is below 1e-8 after the square root. -/
def cosine_similarity (sqrt : ℚ → ℚ) (a b : List ℚ) : ℚ :=
  let len := min a.length b.length
  let a' := a.take len
  let b' := b.take len
  let dot := (List.zipWith (fun x y => x * y) a' b').sum
  let norm_a := (List.zipWith (fun x y => x * y) a' a').sum
  let norm_b := (List.zipWith (fun x y => x * y) b' b').sum
  let norm := sqrt (norm_a * norm_b)
  if norm < 1/100000000 then 0 else dot / norm

structure PatternDatabase where
  patterns : List LightPattern
  max_patterns : Nat
  next_id : Nat
  total_lookups : Nat
deriving DecidableEq, Repr

namespace PatternDatabase

/-- `PatternDatabase::new`. -/
def new (max_patterns : Nat) : PatternDatabase :=
  { patterns := [], max_patterns := max_patterns, next_id := 0, total_lookups := 0 }

/-- Rust's `min_by_key(use_count)` over the enumerated patterns: the first
index attaining the minimal usage count. -/
def minUseIdx : List LightPattern → Option Nat
  | [] => none
  | p :: ps =>
      some ((ps.enum.map (fun q => (q.1 + 1, q.2))).foldl
        (fun best q => if q.2.use_count < best.2.use_count then q else best)
        (0, p)).1

/-- `PatternDatabase::add`: evict the least-used entry when at capacity,
then append the pattern under the next monotone id. -/
def add (db : PatternDatabase) (pattern : LightPattern) : Nat × PatternDatabase :=
  let patterns :=
    if db.max_patterns ≤ db.patterns.length then
      match minUseIdx db.patterns with
      | some i => db.patterns.eraseIdx i
      | none => db.patterns
    else db.patterns
  let id := db.next_id
  (id,
   { db with
      patterns := patterns ++ [{ pattern with id := id }]
      next_id := id + 1 })

/-- `PatternDatabase::find_similar`: record the lookup, score every stored
pattern, stably sort descending, truncate to `top_k`, promote the usage
count of every returned entry, and return the scored patterns. -/
def find_similar (sqrt : ℚ → ℚ) (db : PatternDatabase) (query : List ℚ) (top_k : Nat) :
    List (ℚ × LightPattern) × PatternDatabase :=
  let results := db.patterns.enum.map
    (fun p => (cosine_similarity sqrt query p.2.feature_vector, p.1))
  let results := sortByKeyDesc Prod.fst results
  let results := results.take top_k
  let patterns := results.foldl
    (fun ps r =>
      ps.set r.2
        (let q := ps.getD r.2 LightPattern.default
         { q with use_count := q.use_count + 1 }))
    db.patterns
  (results.map (fun r => (r.1, patterns.getD r.2 LightPattern.default)),
   { db with patterns := patterns, total_lookups := db.total_lookups + 1 })

/-- `PatternDatabase::count`. -/
def count (db : PatternDatabase) : Nat := db.patterns.length

end PatternDatabase

/-- The self dot product of a feature vector. -/
def selfDot (f : List ℚ) : ℚ := (List.zipWith (fun x y => x * y) f f).sum

theorem zipWith_mul_sum_zero_left :
    ∀ (a b : List ℚ), (∀ x ∈ a, x = 0) →
      (List.zipWith (fun x y => x * y) a b).sum = 0 := by
  intro a
  induction a with
  | nil => intro b _; simp
  | cons x xs ih =>
      intro b hz
      cases b with
      | nil => simp
      | cons y ys =>
          simp only [List.zipWith_cons_cons, List.sum_cons]
          rw [hz x (List.mem_cons_self x xs), ih ys
            (fun z hzz => hz z (List.mem_cons_of_mem x hzz))]
          ring

theorem cosine_similarity_zero_left (sqrt : ℚ → ℚ) (hsq : sqrt 0 = 0) (a b : List ℚ)
    (ha : ∀ x ∈ a, x = 0) : cosine_similarity sqrt a b = 0 := by
  have hsub : ∀ x ∈ a.take (min a.length b.length), x = 0 :=
    fun x hx => ha x (List.mem_of_mem_take hx)
  simp only [cosine_similarity]
  rw [zipWith_mul_sum_zero_left _ _ hsub, zipWith_mul_sum_zero_left _ _ hsub]
  rw [zero_mul, hsq]
  norm_num

theorem cosine_similarity_self (sqrt : ℚ → ℚ) (f : List ℚ)
    (hs : sqrt (selfDot f * selfDot f) = selfDot f)
    (hd : 1/100000000 ≤ selfDot f) : cosine_similarity sqrt f f = 1 := by
  simp only [cosine_similarity, min_self, List.take_length]
  rw [show (List.zipWith (fun x y => x * y) f f).sum = selfDot f from rfl, hs]
  rw [if_neg (not_lt.mpr hd)]
  exact div_self (ne_of_gt (lt_of_lt_of_le (by norm_num) hd))

theorem sortByKeyDesc_eq_cons {α : Type} (key : α → ℚ) (l : List α) (m : α)
    (hm : m ∈ l) (hmax : ∀ x ∈ l, x = m ∨ key x < key m) :
    ∃ t, sortByKeyDesc key l = m :: t := by
  have hperm : (sortByKeyDesc key l).Perm l := List.perm_insertionSort _ l
  have hsorted : List.Sorted (keyDescOrder key) (sortByKeyDesc key l) :=
    List.sorted_insertionSort _ l
  rcases hsort : sortByKeyDesc key l with _ | ⟨h, t⟩
  · exfalso
    have : m ∈ sortByKeyDesc key l := hperm.mem_iff.mpr hm
    rw [hsort] at this
    simp at this
  · have hmem_h : h ∈ l := hperm.subset (by rw [hsort]; exact List.mem_cons_self h t)
    have hm_in : m ∈ h :: t := by
      rw [← hsort]
      exact hperm.mem_iff.mpr hm
    rcases List.mem_cons.mp hm_in with rfl | hmt
    · exact ⟨t, rfl⟩
    · rw [hsort] at hsorted
      have hrel : keyDescOrder key h m := List.rel_of_sorted_cons hsorted m hmt
      rcases hmax h hmem_h with rfl | hlt
      · exact ⟨t, rfl⟩
      · exact absurd hrel (not_le.mpr hlt)

theorem set_append_length {α : Type} (l : List α) (x y : α) :
    (l ++ [x]).set l.length y = l ++ [y] := by
  induction l with
  | nil => rfl
  | cons a as ih => simp [List.set_cons_succ, ih]

theorem getD_append_length {α : Type} (l : List α) (x d : α) :
    (l ++ [x]).getD l.length d = x := by
  induction l with
  | nil => rfl
  | cons a as ih => simpa [List.getD] using ih

/-- C7 (amended): after `add(p)`, `find_similar(feature_vector(p), 1)`
returns exactly one result whose cosine similarity is exactly 1 and whose
pattern is the just-added `p` (with its newly assigned id and its usage
count promoted by the lookup) — provided `p`'s feature vector is nonzero
(its self dot product is at least the 1e-8 guard, with the square root
exact on that square) and no pattern already stored reaches similarity 1
against `p`'s features.  The zero-feature counterexample below violates
both conclusions of the original claim. -/
theorem pattern_add_then_find_similar (sqrt : ℚ → ℚ) (db : PatternDatabase)
    (p : LightPattern)
    (hs : sqrt (selfDot p.feature_vector * selfDot p.feature_vector) =
      selfDot p.feature_vector)
    (hd : 1/100000000 ≤ selfDot p.feature_vector)
    (hsim : ∀ q ∈ db.patterns,
      cosine_similarity sqrt p.feature_vector q.feature_vector < 1) :
    (PatternDatabase.find_similar sqrt (db.add p).2 p.feature_vector 1).1 =
      [(1, { p with id := db.next_id, use_count := p.use_count + 1 })] := by
  set f := p.feature_vector with hf
  set padded : LightPattern := { p with id := db.next_id } with hpadded
  set kept : List LightPattern :=
    (if db.max_patterns ≤ db.patterns.length then
      match PatternDatabase.minUseIdx db.patterns with
      | some i => db.patterns.eraseIdx i
      | none => db.patterns
    else db.patterns) with hkept
  have hdbp : (db.add p).2.patterns = kept ++ [padded] := rfl
  have hkept_sub : ∀ q ∈ kept, q ∈ db.patterns := by
    intro q hq
    rw [hkept] at hq
    by_cases hfull : db.max_patterns ≤ db.patterns.length
    · rw [if_pos hfull] at hq
      rcases hmin : PatternDatabase.minUseIdx db.patterns with _ | i
      · rwa [hmin] at hq
      · rw [hmin] at hq
        exact List.mem_of_mem_eraseIdx hq
    · rwa [if_neg hfull] at hq
  have hfeat : padded.feature_vector = f := rfl
  have hself : cosine_similarity sqrt f f = 1 := cosine_similarity_self sqrt f hs hd
  have henum : (kept ++ [padded]).enum = kept.enum ++ [(kept.length, padded)] := by
    rw [List.enum_append]
    rfl
  set g : Nat × LightPattern → ℚ × Nat :=
    (fun q => (cosine_similarity sqrt f q.2.feature_vector, q.1)) with hg
  have hresults : (kept ++ [padded]).enum.map g =
      kept.enum.map g ++ [(1, kept.length)] := by
    rw [henum, List.map_append]
    simp [hg, hfeat, hself]
  have hmax : ∀ x ∈ (kept ++ [padded]).enum.map g,
      x = (1, kept.length) ∨ x.1 < 1 := by
    rw [hresults]
    intro x hx
    rcases List.mem_append.mp hx with hx | hx
    · rcases List.mem_map.mp hx with ⟨q, hq, rfl⟩
      exact Or.inr (hsim q.2 (hkept_sub q.2 (List.snd_mem_of_mem_enum hq)))
    · simp at hx
      exact Or.inl hx
  have hmem : ((1 : ℚ), kept.length) ∈ (kept ++ [padded]).enum.map g := by
    rw [hresults]
    exact List.mem_append_right _ (List.mem_singleton.mpr rfl)
  obtain ⟨t, hsort⟩ :=
    sortByKeyDesc_eq_cons Prod.fst ((kept ++ [padded]).enum.map g)
      ((1 : ℚ), kept.length) hmem hmax
  show (PatternDatabase.find_similar sqrt (db.add p).2 f 1).1 = _
  simp only [PatternDatabase.find_similar, hdbp, hsort]
  simp only [List.take_succ_cons, List.take_zero, List.foldl_cons, List.foldl_nil,
    List.map_cons, List.map_nil]
  rw [getD_append_length kept padded LightPattern.default]
  rw [set_append_length kept padded _]
  rw [getD_append_length]

theorem pattern_add_then_find_similar_witness :
    (PatternDatabase.find_similar ratSqrt
        ((PatternDatabase.new 10).add LightPattern.default).2
        LightPattern.default.feature_vector 1).1 =
      [(1, { LightPattern.default with id := 0, use_count := 1 })] := by
  have hsd : selfDot LightPattern.default.feature_vector = 217/100 := by
    norm_num [selfDot, LightPattern.feature_vector, LightPattern.default,
      MaterialProps.default, List.replicate, List.flatten]
  have h := pattern_add_then_find_similar ratSqrt (PatternDatabase.new 10)
    LightPattern.default
    (by rw [hsd]; exact ratSqrt_mul_self _ (by norm_num))
    (by rw [hsd]; norm_num)
    (by intro q hq; simp [PatternDatabase.new] at hq)
  simpa [PatternDatabase.new] using h

/-- A pattern all of whose features are zero: lighting, SH coefficients,
roughness, metalness and albedo all vanish. -/
def zeroFeaturePattern : LightPattern :=
  { LightPattern.default with
      material := { roughness := 0, metalness := 0, albedo := [0, 0, 0],
                    emission := [0, 0, 0] } }

theorem zeroFeaturePattern_features (x : ℚ)
    (hx : x ∈ zeroFeaturePattern.feature_vector) : x = 0 := by
  simp only [zeroFeaturePattern, LightPattern.feature_vector, LightPattern.default,
    List.mem_append] at hx
  rcases hx with ((((hx | hx) | hx) | hx) | hx)
  · rcases List.mem_flatten.mp hx with ⟨l, hl, hxl⟩
    rw [List.eq_of_mem_replicate hl] at hxl
    exact List.eq_of_mem_replicate hxl
  · rcases List.mem_flatten.mp hx with ⟨l, hl, hxl⟩
    rw [List.eq_of_mem_replicate hl] at hxl
    exact List.eq_of_mem_replicate hxl
  · rcases List.mem_flatten.mp hx with ⟨l, hl, hxl⟩
    rw [List.eq_of_mem_replicate hl] at hxl
    exact List.eq_of_mem_replicate hxl
  · simpa using hx
  · simpa using hx

/-- C7 (counterexample): add a zero-feature pattern to a cache already
holding the default pattern, then look its own features up.  The single
result is the OLD pattern (id 0), not the just-added one (id 1), and the
similarity is 0, not ≈ 1: the zero query makes every similarity 0 (the
norm guard), and the stable sort then prefers the earlier entry. -/
theorem pattern_zero_feature_counterexample :
    (((PatternDatabase.new 10).add LightPattern.default).2.add zeroFeaturePattern).1
      = 1 ∧
    ((PatternDatabase.find_similar ratSqrt
        ((((PatternDatabase.new 10).add LightPattern.default).2).add
          zeroFeaturePattern).2
        zeroFeaturePattern.feature_vector 1).1.map (fun r => (r.1, r.2.id)))
      = [(0, 0)] := by
  constructor
  · rfl
  · have hsq0 : ratSqrt 0 = 0 := by
      have h := ratSqrt_mul_self 0 (le_refl 0)
      simpa using h
    have hcos : ∀ b, cosine_similarity ratSqrt zeroFeaturePattern.feature_vector b = 0 :=
      fun b => cosine_similarity_zero_left ratSqrt hsq0 _ b zeroFeaturePattern_features
    have hpat :
        ((((PatternDatabase.new 10).add LightPattern.default).2).add
          zeroFeaturePattern).2.patterns =
        [LightPattern.default, { zeroFeaturePattern with id := 1 }] := rfl
    have henum :
        ([LightPattern.default, { zeroFeaturePattern with id := 1 }] : List LightPattern).enum
          = [(0, LightPattern.default), (1, { zeroFeaturePattern with id := 1 })] := rfl
    simp only [PatternDatabase.find_similar, hpat, henum, List.map_cons, List.map_nil,
      hcos]
    have hsort :
        sortByKeyDesc Prod.fst [((0 : ℚ), 0), ((0 : ℚ), 1)] = [((0 : ℚ), 0), ((0 : ℚ), 1)] := by
      norm_num [sortByKeyDesc, keyDescOrder]
    rw [hsort]
    norm_num [List.getD, LightPattern.default]

/-! ## SelectionEngine (`src/evolution.rs`)

`EvolutionEngine` operates on the older `Voxel` variant compiled by
`test_components.rs`, whose definition (genome, resonance, perception and
emotion scalars) is not among the shipped sources.  Those data types are
modelled from the spec; the algorithms (`combine`, `mutate`, `fitness`,
`evolve`) are translated from `evolution.rs` itself. -/

namespace Evolution

/-- Modelled from the spec: `Genome` is an "ordered bounded list of string
tags" with capacity `max_concepts` (≤ 10 string concepts), the missing
`crate::voxel::Genome` of `evolution.rs`. -/
structure Genome where
  concepts : List String
  max_concepts : Nat
deriving DecidableEq, Repr

/-- Modelled from the spec: a fresh genome is empty with capacity 10. -/
def Genome.new : Genome := { concepts := [], max_concepts := 10 }

/-- Modelled from the spec: `add_concept` appends a tag while the genome
is below capacity (invariant "genome length ≤ capacity"). -/
def Genome.add_concept (c : String) (g : Genome) : Genome :=
  if g.concepts.length < g.max_concepts then
    { g with concepts := g.concepts ++ [c] }
  else g

/-- Modelled from the spec: the older `Voxel` variant used by the
selection engine, carrying exactly the fields `fitness` and `evolve`
read — energy, genome, resonance, three perception channels and three
emotion axes (all scalars embedded as rationals). -/
structure Voxel where
  energy : ℚ
  genome : Genome
  resonance : ℚ
  perception_visual : ℚ
  perception_auditory : ℚ
  perception_tactile : ℚ
  emotion_valence : ℚ
  emotion_arousal : ℚ
  emotion_dominance : ℚ
deriving DecidableEq, Repr

structure EvolutionEngine where
  mutation_rate : ℚ
  crossover_rate : ℚ
  fitness_threshold : ℚ
deriving DecidableEq, Repr

instance : Inhabited Voxel :=
  ⟨{ energy := 0, genome := Genome.new, resonance := 0, perception_visual := 0,
     perception_auditory := 0, perception_tactile := 0, emotion_valence := 0,
     emotion_arousal := 0, emotion_dominance := 0 }⟩

namespace EvolutionEngine

/-- `EvolutionEngine::new`. -/
def new : EvolutionEngine :=
  { mutation_rate := 1/10, crossover_rate := 7/10, fitness_threshold := 1/2 }

/-- `EvolutionEngine::combine`: sample `min(combined_len/2, capacity)`
concepts with replacement from the concatenation of both parents. -/
def combine (parent1 parent2 : Genome) (g : Rng) : Genome × Rng :=
  let all_concepts := parent1.concepts ++ parent2.concepts
  let num_concepts := min (all_concepts.length / 2) Genome.new.max_concepts
  (List.range num_concepts).foldl
    (fun (p : Genome × Rng) _ =>
      let (i, rng) := p.2.nextNat all_concepts.length
      (p.1.add_concept (all_concepts.getD i ("")), rng))
    (Genome.new, g)

/-- `EvolutionEngine::mutate`: three independent Bernoulli trials — append
a synthetic tag, remove a random tag, rename a random tag. -/
def mutate (e : EvolutionEngine) (genome : Genome) (g : Rng) : Genome × Rng :=
  let (b1, g) := g.nextBool
  let (genome, g) :=
    if b1 then
      if genome.concepts.length < genome.max_concepts then
        let (n, g) := g.nextRaw
        (genome.add_concept (String.append ("mutated_") (toString n)), g)
      else (genome, g)
    else (genome, g)
  let (b2, g) := g.nextBool
  let (genome, g) :=
    if b2 then
      if genome.concepts ≠ [] then
        let (i, g) := g.nextNat genome.concepts.length
        ({ genome with concepts := genome.concepts.eraseIdx i }, g)
      else (genome, g)
    else (genome, g)
  let (b3, g) := g.nextBool
  if b3 then
    if genome.concepts ≠ [] then
      let (i, g) := g.nextNat genome.concepts.length
      let renamed := genome.concepts.set i
        (String.append (genome.concepts.getD i ("")) ("_mut"))
      ({ genome with concepts := renamed }, g)
    else (genome, g)
  else (genome, g)

/-- `EvolutionEngine::fitness`: 0.3·energy + 0.1·genome size +
0.2·resonance + 0.1·perception sum + 0.3·emotion balance. -/
def fitness (v : Voxel) : ℚ :=
  v.energy * (3/10) +
  (v.genome.concepts.length : ℚ) * (1/10) +
  v.resonance * (2/10) +
  (v.perception_visual + v.perception_auditory + v.perception_tactile) * (1/10) +
  (1 - (|v.emotion_valence| + |v.emotion_arousal| + |v.emotion_dominance|) / 3) * (3/10)

/-- `EvolutionEngine::evolve`: score and rank every voxel by fitness
(stable descending sort over `(index, fitness)` pairs), then overwrite the
genome of each slot from `top_count` to the end of the slice with either a
crossover of two parents drawn from the top of the ranking (mutated), or
a mutated clone of one such parent.  Parents are read from the slice as it
is being rewritten, exactly as in the source. -/
def evolveStep (e : EvolutionEngine) (fitness_scores : List (Nat × ℚ))
    (top_count : Nat) (p : List Voxel × Rng) (i : Nat) : List Voxel × Rng :=
  let (d1, rng) := p.2.nextNat top_count
  let parent1_idx := (fitness_scores.getD d1 (0, 0)).1
  let (d2, rng) := rng.nextNat top_count
  let parent2_idx := (fitness_scores.getD d2 (0, 0)).1
  let (bc, rng) := rng.nextBool
  if bc then
    let (new_genome, rng) := combine
      ((p.1.getD parent1_idx Inhabited.default).genome)
      ((p.1.getD parent2_idx Inhabited.default).genome) rng
    let (new_genome, rng) := e.mutate new_genome rng
    (p.1.set i { (p.1.getD i Inhabited.default) with genome := new_genome }, rng)
  else
    let cloned := (p.1.getD parent1_idx Inhabited.default).genome
    let (mutated, rng) := e.mutate cloned rng
    (p.1.set i { (p.1.getD i Inhabited.default) with genome := mutated }, rng)

/-- `EvolutionEngine::evolve`: score and rank every voxel by fitness
(stable descending sort over `(index, fitness)` pairs), then run the
replacement loop over the slots from `top_count` to the end of the
slice. -/
def evolve (e : EvolutionEngine) (voxels : List Voxel) (g : Rng) : List Voxel × Rng :=
  let fitness_scores := voxels.enum.map (fun p => (p.1, fitness p.2))
  let fitness_scores := sortByKeyDesc Prod.snd fitness_scores
  let top_count := max (voxels.length / 2) 1
  (List.range' top_count (voxels.length - top_count)).foldl
    (evolveStep e fitness_scores top_count) (voxels, g)

end EvolutionEngine

end Evolution

theorem take_set_of_le {α : Type} :
    ∀ (l : List α) (i t : Nat) (x : α), t ≤ i → (l.set i x).take t = l.take t := by
  intro l
  induction l with
  | nil => intro i t x _; simp
  | cons a as ih =>
      intro i t x h
      cases i with
      | zero =>
          have : t = 0 := Nat.le_zero.mp h
          simp [this]
      | succ i' =>
          cases t with
          | zero => simp
          | succ t' =>
              simp only [List.set_cons_succ, List.take_succ_cons]
              rw [ih i' t' x (Nat.le_of_succ_le_succ h)]

namespace Evolution

theorem evolveStep_is_set (e : EvolutionEngine) (fs : List (Nat × ℚ)) (t : Nat)
    (p : List Voxel × Rng) (i : Nat) :
    ∃ x rng, EvolutionEngine.evolveStep e fs t p i = (p.1.set i x, rng) := by
  unfold EvolutionEngine.evolveStep
  rcases h1 : p.2.nextNat t with ⟨d1, rng1⟩
  rcases h2 : rng1.nextNat t with ⟨d2, rng2⟩
  rcases h3 : rng2.nextBool with ⟨bc, rng3⟩
  simp only [h1, h2, h3]
  cases bc with
  | true =>
      rcases h4 : EvolutionEngine.combine
          ((p.1.getD (fs.getD d1 (0, 0)).1 Inhabited.default).genome)
          ((p.1.getD (fs.getD d2 (0, 0)).1 Inhabited.default).genome) rng3 with ⟨g1, rng4⟩
      rcases h5 : e.mutate g1 rng4 with ⟨g2, rng5⟩
      simp only [h4, h5, if_true]
      exact ⟨_, _, rfl⟩
  | false =>
      rcases h5 : e.mutate
          ((p.1.getD (fs.getD d1 (0, 0)).1 Inhabited.default).genome) rng3 with ⟨g2, rng5⟩
      simp only [h5]
      exact ⟨_, _, rfl⟩

theorem foldl_evolveStep_spec (e : EvolutionEngine) (fs : List (Nat × ℚ)) (t : Nat)
    (idxs : List Nat) (hidx : ∀ i ∈ idxs, t ≤ i) :
    ∀ p : List Voxel × Rng,
      (idxs.foldl (EvolutionEngine.evolveStep e fs t) p).1.length = p.1.length ∧
      (idxs.foldl (EvolutionEngine.evolveStep e fs t) p).1.take t = p.1.take t := by
  induction idxs with
  | nil => intro p; exact ⟨rfl, rfl⟩
  | cons i idxs ih =>
      intro p
      have hi : t ≤ i := hidx i (List.mem_cons_self i idxs)
      have hidx' : ∀ j ∈ idxs, t ≤ j := fun j hj => hidx j (List.mem_cons_of_mem i hj)
      obtain ⟨x, rng, hstep⟩ := evolveStep_is_set e fs t p i
      simp only [List.foldl_cons, hstep]
      obtain ⟨hl, ht⟩ := ih hidx' (p.1.set i x, rng)
      constructor
      · rw [hl]
        exact List.length_set p.1 i x
      · rw [ht]
        exact take_set_of_le p.1 i t x hi

end Evolution

/-- C1 (amended): `evolve` never changes the population size; the voxels
at the first `top_count = max(len/2, 1)` *slice positions* (for a 4-agent
population, the first two array slots) are left entirely unchanged, and an
empty population is a no-op.  It is the positional bottom half that is
rewritten — not the bottom half of the fitness ranking, as the
counterexample shows. -/
theorem evolve_preserves_size_and_slice_prefix (e : Evolution.EvolutionEngine)
    (voxels : List Evolution.Voxel) (g : Rng) :
    (e.evolve voxels g).1.length = voxels.length ∧
    (e.evolve voxels g).1.take (max (voxels.length / 2) 1) =
      voxels.take (max (voxels.length / 2) 1) ∧
    (voxels = [] → e.evolve voxels g = ([], g)) := by
  have hidx : ∀ i ∈ List.range' (max (voxels.length / 2) 1)
      (voxels.length - max (voxels.length / 2) 1), max (voxels.length / 2) 1 ≤ i := by
    intro i hi
    exact (List.mem_range'_1.mp hi).1
  obtain ⟨hl, ht⟩ := Evolution.foldl_evolveStep_spec e
    (sortByKeyDesc Prod.snd (voxels.enum.map (fun p => (p.1, Evolution.EvolutionEngine.fitness p.2))))
    (max (voxels.length / 2) 1) _ hidx (voxels, g)
  refine ⟨hl, ht, ?_⟩
  intro h
  subst h
  rfl

theorem evolve_preserves_size_and_slice_prefix_witness :
    (Evolution.EvolutionEngine.new.evolve []
        { nats := [], bools := [], rats := [] }).1.length = 0 ∧
    Evolution.EvolutionEngine.new.evolve [] { nats := [], bools := [], rats := [] } =
      ([], { nats := [], bools := [], rats := [] }) := by
  obtain ⟨hl, ht, hn⟩ := evolve_preserves_size_and_slice_prefix
    Evolution.EvolutionEngine.new [] { nats := [], bools := [], rats := [] }
  exact ⟨by simpa using hl, hn rfl⟩

/-- A selection-engine voxel with a given energy and a one-concept genome;
all other fitness inputs are zero. -/
def evoV (en : ℚ) (c : String) : Evolution.Voxel :=
  { energy := en, genome := { concepts := [c], max_concepts := 10 }, resonance := 0,
    perception_visual := 0, perception_auditory := 0, perception_tactile := 0,
    emotion_valence := 0, emotion_arousal := 0, emotion_dominance := 0 }

/-- Four voxels with strictly increasing fitness along the slice, so the
two FITTEST voxels sit at slice positions 2 and 3. -/
def evoPop : List Evolution.Voxel :=
  [evoV 0 ("a"), evoV (1/10) ("b"), evoV (1/2) ("c"), evoV 1 ("d")]

/-- C1 (counterexample): on a 4-agent population with distinct fitness
values whose two fittest members sit at slice positions 2 and 3, `evolve`
rewrites the genome of position 3 — the top-ranked agent by fitness —
because the replacement loop overwrites positions `top_count..len` of the
slice, not the bottom half of the fitness ranking.  With the exhibited
draws the slot ends up holding a clone of the other parent's genome. -/
theorem evolve_rewrites_top_fitness_slot :
    Evolution.EvolutionEngine.fitness (evoPop.getD 2 Inhabited.default) <
      Evolution.EvolutionEngine.fitness (evoPop.getD 3 Inhabited.default) ∧
    Evolution.EvolutionEngine.fitness (evoPop.getD 1 Inhabited.default) <
      Evolution.EvolutionEngine.fitness (evoPop.getD 2 Inhabited.default) ∧
    Evolution.EvolutionEngine.fitness (evoPop.getD 0 Inhabited.default) <
      Evolution.EvolutionEngine.fitness (evoPop.getD 1 Inhabited.default) ∧
    (evoPop.getD 3 Inhabited.default).genome.concepts = [("d" : String)] ∧
    ((Evolution.EvolutionEngine.new.evolve evoPop
        { nats := [1, 0, 1, 0],
          bools := [false, false, false, false, false, false, false, false],
          rats := [] }).1.getD 3 Inhabited.default).genome.concepts
      = [("c" : String)] := by
  refine ⟨?_, ?_, ?_, ?_, ?_⟩
  · norm_num [evoPop, evoV, Evolution.EvolutionEngine.fitness, List.getD]
  · norm_num [evoPop, evoV, Evolution.EvolutionEngine.fitness, List.getD]
  · norm_num [evoPop, evoV, Evolution.EvolutionEngine.fitness, List.getD]
  · norm_num [evoPop, evoV, List.getD]
  · norm_num [evoPop, evoV, Evolution.EvolutionEngine.evolve,
      Evolution.EvolutionEngine.evolveStep, Evolution.EvolutionEngine.fitness,
      Evolution.EvolutionEngine.mutate, Evolution.EvolutionEngine.combine,
      Evolution.EvolutionEngine.new, sortByKeyDesc, keyDescOrder,
      List.range', Rng.nextNat, Rng.nextBool, Rng.nextRaw, List.getD,
      Evolution.Genome.new, Evolution.Genome.add_concept]

/-! ## Orchestrator (`src/world.rs`)

`Ecosystem`, its tick update, pause toggle and stats snapshot.  `Instant`
clocks are rationals passed in as `now`; the per-tick randomness of the
nucleotide pool threads the explicit draw stream. -/

/-- Threads the draw stream through a per-element stateful update, in
element order. -/
def mapRng {α β : Type} (f : α → Rng → β × Rng) : List α → Rng → List β × Rng
  | [], g => ([], g)
  | x :: xs, g =>
      let (y, g1) := f x g
      let (ys, g2) := mapRng f xs g1
      (y :: ys, g2)

structure NucleotidePool where
  nucleotides : List Nucleotide
  size : Nat
  current_tick : Nat
  total_updates : Nat
deriving DecidableEq, Repr

namespace NucleotidePool

/-- `NucleotidePool::new`. -/
def new (size : Nat) : NucleotidePool :=
  { nucleotides := [], size := size, current_tick := 0, total_updates := 0 }

/-- `NucleotidePool::update_all`: `fetch_add` hands each record the
pre-increment tick; every record is updated exactly once. -/
def update_all (dt : ℚ) (pool : NucleotidePool) (g : Rng) : NucleotidePool × Rng :=
  let tick := pool.current_tick
  let (nucs, g) := mapRng (fun n rng => Nucleotide.update dt tick n rng) pool.nucleotides g
  ({ pool with
      nucleotides := nucs
      current_tick := tick + 1
      total_updates := pool.total_updates + pool.size }, g)

end NucleotidePool

/-- `Concept` from `src/concept.rs` (named `ConceptEntry` here because
Mathlib already claims the name `Concept`). -/
structure ConceptEntry where
  term : String
  definition : String
  source_url : String
  importance : ℚ
  discovery_time : ℚ
  access_count : Nat
deriving DecidableEq, Repr

structure ConceptSearcher where
  concepts : List (String × ConceptEntry)
  base_keywords : List String
  total_searches : Nat
  last_search_time : ℚ
deriving DecidableEq, Repr

namespace ConceptSearcher

/-- `ConceptSearcher::new`. -/
def new (keywords : List String) : ConceptSearcher :=
  { concepts := [], base_keywords := keywords, total_searches := 0,
    last_search_time := 0 }

/-- `ConceptSearcher::count`. -/
def count (c : ConceptSearcher) : Nat := c.concepts.length

end ConceptSearcher

structure Ecosystem where
  nucleotides : NucleotidePool
  voxels : VoxelWorld
  patterns : PatternDatabase
  kaif : KaifEngine
  concepts : ConceptSearcher
  running : Bool
  paused : Bool
  start_time : ℚ
  total_ticks : Nat
  fps : ℚ
  last_frame_time : ℚ
  fps_samples : List ℚ
deriving DecidableEq, Repr

structure EcosystemStats where
  ticks : Nat
  fps : ℚ
  kaif : ℚ
  kaif_state : String
  nucleotide_count : Nat
  voxel_count : Nat
  avg_health : ℚ
  avg_energy : ℚ
  concept_count : Nat
  uptime_secs : ℚ
deriving DecidableEq, Repr

namespace Ecosystem

/-- `Ecosystem::update`: a no-op while paused; otherwise bump the tick,
update the nucleotide pool (consuming draws), update the voxel world, feed
the sampled nucleotide and emotion vectors to the metric engine, update
the engine, and refresh the FPS statistics from the frame clock `now`. -/
def update (log2 : ℚ → ℚ) (g : Rng) (now dt : ℚ) (eco : Ecosystem) : Ecosystem × Rng :=
  if eco.paused then (eco, g)
  else
    let total_ticks := eco.total_ticks + 1
    let (nucleotides, g) := eco.nucleotides.update_all dt g
    let voxels := eco.voxels.update log2 dt
    let kaif :=
      if 0 < nucleotides.nucleotides.length then
        eco.kaif.update_component ("nucleotides")
          (((nucleotides.nucleotides.take 64).map
            (fun n => n.semantic_vector.take 1)).flatten)
      else eco.kaif
    let emotions := ((voxels.voxels.take 8).map (fun p => p.2.emotions.base_emotions)).flatten
    let kaif := if emotions ≠ [] then kaif.update_component ("emotions") emotions else kaif
    let kaif := kaif.update log2 dt
    let frame_time := now - eco.last_frame_time
    let fps_state :=
      if 0 < frame_time then
        let samples := eco.fps_samples ++ [1 / frame_time]
        let samples := if 60 < samples.length then samples.drop 1 else samples
        (samples, samples.sum / (samples.length : ℚ))
      else (eco.fps_samples, eco.fps)
    ({ eco with
        total_ticks := total_ticks
        nucleotides := nucleotides
        voxels := voxels
        kaif := kaif
        last_frame_time := now
        fps_samples := fps_state.1
        fps := fps_state.2 }, g)

/-- `Ecosystem::toggle_pause`. -/
def toggle_pause (eco : Ecosystem) : Ecosystem :=
  { eco with paused := !eco.paused }

/-- `Ecosystem::get_stats` with the uptime clock `now`. -/
def get_stats (eco : Ecosystem) (now : ℚ) : EcosystemStats :=
  { ticks := eco.total_ticks
    fps := eco.fps
    kaif := eco.kaif.get_kaif
    kaif_state := eco.kaif.get_state.as_str
    nucleotide_count := eco.nucleotides.size
    voxel_count := eco.voxels.count
    avg_health := eco.voxels.avg_health
    avg_energy := eco.voxels.avg_energy
    concept_count := eco.concepts.count
    uptime_secs := now - eco.start_time }

end Ecosystem

/-- A concrete quiescent ecosystem used to instantiate the claims: empty
pool, empty world, the given pattern cache, fresh metric engine, no
concepts. -/
def baseEco (pd : PatternDatabase) (paused : Bool) : Ecosystem :=
  { nucleotides := NucleotidePool.new 0
    voxels := VoxelWorld.new 4
    patterns := pd
    kaif := KaifEngine.new
    concepts := ConceptSearcher.new []
    running := false
    paused := paused
    start_time := 0
    total_ticks := 0
    fps := 0
    last_frame_time := 0
    fps_samples := [] }

/-- C6 (counterexample): two ecosystems identical except for the contents
of the pattern cache (0 patterns against 1 pattern) produce the very same
stats snapshot — no component of `get_stats` carries a pattern count. -/
theorem ecosystem_stats_ignore_pattern_count :
    Ecosystem.get_stats (baseEco (PatternDatabase.new 10) false) 5 =
      Ecosystem.get_stats
        (baseEco ((PatternDatabase.new 10).add LightPattern.default).2 false) 5 ∧
    (baseEco (PatternDatabase.new 10) false).patterns.count = 0 ∧
    (baseEco ((PatternDatabase.new 10).add LightPattern.default).2 false).patterns.count
      = 1 := by
  exact ⟨rfl, rfl, rfl⟩

/-- C6 (amended): the stats snapshot is invariant under any change to the
pattern cache (it contains no pattern count), and consists of exactly the
tick count, the FPS average, the smoothed metric and its state label, the
pool size, the agent count, the mean health and energy, the concept count,
and the uptime. -/
theorem ecosystem_get_stats_fields (eco : Ecosystem) (now : ℚ) (pd : PatternDatabase) :
    Ecosystem.get_stats { eco with patterns := pd } now = Ecosystem.get_stats eco now ∧
    Ecosystem.get_stats eco now =
      { ticks := eco.total_ticks
        fps := eco.fps
        kaif := eco.kaif.metrics.smoothed
        kaif_state := eco.kaif.metrics.state.as_str
        nucleotide_count := eco.nucleotides.size
        voxel_count := eco.voxels.voxels.length
        avg_health := eco.voxels.avg_health
        avg_energy := eco.voxels.avg_energy
        concept_count := eco.concepts.concepts.length
        uptime_secs := now - eco.start_time } :=
  ⟨rfl, rfl⟩

/-- C10: while paused, `Ecosystem::update` is a complete no-op for every
`dt` and every frame clock: the state is returned untouched and no
subsystem update runs (not even a random draw is consumed). -/
theorem ecosystem_update_paused_noop (log2 : ℚ → ℚ) (g : Rng) (now dt : ℚ)
    (eco : Ecosystem) (h : eco.paused = true) :
    Ecosystem.update log2 g now dt eco = (eco, g) := by
  simp [Ecosystem.update, h]

theorem ecosystem_update_paused_noop_witness :
    Ecosystem.update (fun _ => 0) { nats := [], bools := [], rats := [1] } 7 (1/60)
        (baseEco (PatternDatabase.new 10) true) =
      (baseEco (PatternDatabase.new 10) true,
       { nats := [], bools := [], rats := [1] }) :=
  ecosystem_update_paused_noop (fun _ => 0) { nats := [], bools := [], rats := [1] }
    7 (1/60) (baseEco (PatternDatabase.new 10) true) rfl
